import Mathlib

/-!
Verification development for the catalog-driven insurance quoting engine
(`app/services/expression.py`, `app/services/validation.py`,
`app/services/pricing.py`, `app/domain/pricing.py`, `app/domain/errors.py`).

The Python code is shallowly embedded: `Decimal` values are modelled as exact
rationals (the default `Decimal` context carries 28 significant digits, far
above anything the catalog formulas produce, so its rounding never fires on
the values in scope), Python `int` as `Int`, strings as `String`, and every
fallible evaluation as `Except`.  Expressions are modelled after parsing:
the `Expr` type below is the set of AST node kinds `SafeEvaluator` accepts.
Recursion in the evaluator is bounded by an explicit fuel parameter; the only
genuinely unbounded recursion in the source (a pricing helper re-entering the
formula evaluator) maps to fuel exhaustion, mirroring Python's recursion
limit.
-/

/-- Truncation toward zero, the behaviour of Python `int(Decimal(...))`. -/
def ratTrunc (q : ℚ) : Int := q.num.tdiv q.den

/-- `round` on a `Decimal` with no `ndigits`: banker's rounding (half to even)
to an integer, Python's default `ROUND_HALF_EVEN`.  Written on the
numerator/denominator pair: `f` is the floor and `r2` twice the fractional
part's numerator, so `r2 < den` means the fraction is below one half. -/
def roundHalfEven (q : ℚ) : Int :=
  let n := q.num
  let d : Int := (q.den : Int)
  let f := n.fdiv d
  let r2 := 2 * (n - f * d)
  if r2 < d then f
  else if d < r2 then f + 1
  else if 2 ∣ f then f else f + 1

/-- Digit list to value; `none` when a non-digit appears or the list is empty. -/
def digitsToNat : List Char → Option Nat
  | [] => none
  | cs => cs.foldl (fun acc c => do
      let a ← acc
      if c.isDigit then some (a * 10 + (c.toNat - 48)) else none) (some 0)

/-- Python `int(string)`: surrounding whitespace allowed, optional sign, then
decimal digits only (digit-group underscores are not modelled; they never
appear in catalog data). -/
def pyParseInt (s : String) : Option Int :=
  let cs := (s.toList.dropWhile Char.isWhitespace).reverse.dropWhile Char.isWhitespace |>.reverse
  match cs with
  | '-' :: rest => (digitsToNat rest).map (fun n => -(n : Int))
  | '+' :: rest => (digitsToNat rest).map (fun n => (n : Int))
  | rest => (digitsToNat rest).map (fun n => (n : Int))

/-- `Decimal(string)`: surrounding whitespace allowed, optional sign, plain
fixed-point digits with at most one dot (`"5."` and `".5"` are accepted, `"."`
and `""` are not).  Exponent, `Infinity` and `NaN` forms never occur in the
catalog and are not modelled. -/
def pyParseDecimal (s : String) : Option ℚ :=
  let cs := (s.toList.dropWhile Char.isWhitespace).reverse.dropWhile Char.isWhitespace |>.reverse
  let signed : Bool × List Char :=
    match cs with
    | '-' :: rest => (true, rest)
    | '+' :: rest => (false, rest)
    | rest => (false, rest)
  let body := signed.2
  let intPart := body.takeWhile (· ≠ '.')
  let rest := body.dropWhile (· ≠ '.')
  let go : Option ℚ :=
    match rest with
    | [] => (digitsToNat intPart).map (fun n => mkRat (n : Int) 1)
    | '.' :: frac =>
      if intPart = [] ∧ frac = [] then none
      else if frac.all Char.isDigit ∧ intPart.all Char.isDigit then
        let ip := (digitsToNat intPart).getD 0
        let fp := (digitsToNat frac).getD 0
        some (mkRat ((ip * 10 ^ frac.length + fp : Nat) : Int) (10 ^ frac.length))
      else none
    | _ => none
  go.map (fun q => if signed.1 then -q else q)

/-- Python-style string dictionary order on char lists (shorter prefix first). -/
def pyStrLt : List Char → List Char → Bool
  | [], [] => false
  | [], _ :: _ => true
  | _ :: _, [] => false
  | a :: as, b :: bs => if a < b then true else if b < a then false else pyStrLt as bs

/-! ## Domain model: `app/domain/pricing.py` -/

/-- `PricingMultiplier` dataclass. -/
structure PricingMultiplier where
  code : String
  value : ℚ
  note : Option String
deriving Repr, DecidableEq

/-- `PricingState` dataclass.  The field types mirror the dataclass
annotations; the catalog's pricing operations coerce everything they store
into these types.  Dynamic attributes that `setattr` could create for a key
outside the declared fields never arise from the catalog and are not
modelled (the corresponding `pricing_set` branch is an error below). -/
structure PricingState where
  base_rate : ℚ := 0
  factor_per_risk_unit : ℚ := 0
  risk_weight_sum : Int := 0
  deductible_discount : ℚ := 0
  multipliers : List PricingMultiplier := []
  tariff_total : ℚ := 0
  premium_total : Int := 0
deriving Repr, DecidableEq

/-- The `multipliers_product` property: running product in list order, 1 if
none. -/
def PricingState.multipliers_product (s : PricingState) : ℚ :=
  s.multipliers.foldl (fun acc m => acc * m.value) 1

/-- The dictionary returned by `PricingState.breakdown()`.  Python renders the
decimal entries through `str`; two equal accumulators produced by the same
computation render identically, so the underlying values are kept here. -/
structure Breakdown where
  base_rate : ℚ
  multipliers : List PricingMultiplier
  multipliers_product : ℚ
  risk_weight_sum : Int
  factor_per_risk_unit : ℚ
  deductible_discount : ℚ
  tariff_total : ℚ
  premium_total : Int
deriving Repr, DecidableEq

/-- `PricingState.breakdown()`. -/
def PricingState.breakdown (s : PricingState) : Breakdown :=
  { base_rate := s.base_rate
    multipliers := s.multipliers
    multipliers_product := s.multipliers_product
    risk_weight_sum := s.risk_weight_sum
    factor_per_risk_unit := s.factor_per_risk_unit
    deductible_discount := s.deductible_discount
    tariff_total := s.tariff_total
    premium_total := s.premium_total }

/-! ## Runtime values -/

/-- A Python value as the expression engine can produce or consume it.
`vdec` is an exact `Decimal`; `vfloat` is a Python `float`, modelled as an
exact rational (binary rounding is not modelled — floats only arise from
`int / int` division and from the quote's final `float(...)` presentation
coercions, and no verified property depends on their rounding).  `vns` is an
`expression.Namespace`; `vps` the `PricingState` accumulator; `vfun` a
function object exposed in the environment (never called except through
`visit_Call` by name). -/
inductive Value where
  | vnone
  | vbool (b : Bool)
  | vint (n : Int)
  | vdec (q : ℚ)
  | vfloat (q : ℚ)
  | vstr (s : String)
  | vlist (elems : List Value)
  | vdict (entries : List (Value × Value))
  | vns (data : List (String × Value))
  | vps (st : PricingState)
  | vmul (m : PricingMultiplier)
  | vbreak (b : Breakdown)
  | vfun (name : String)
deriving Repr

/-- Association-list lookup, first match — Python `dict` access (catalog
dictionaries have unique keys). -/
def alookup {α : Type} : List (String × α) → String → Option α
  | [], _ => none
  | (k, v) :: rest, key => if k = key then some v else alookup rest key

/-- Python truthiness (`bool(x)`). A `Namespace`, a `PricingState`, a bound
method and a `PricingMultiplier` are plain objects and always truthy. -/
def truthy : Value → Bool
  | .vnone => false
  | .vbool b => b
  | .vint n => n ≠ 0
  | .vdec q => q ≠ 0
  | .vfloat q => q ≠ 0
  | .vstr s => s ≠ ""
  | .vlist es => ¬ es.isEmpty
  | .vdict es => ¬ es.isEmpty
  | .vns _ => true
  | .vps _ => true
  | .vmul _ => true
  | .vbreak _ => true
  | .vfun _ => true

/-- Numeric view used by Python's cross-type arithmetic and comparison:
`bool` counts as 0/1, `int`, `Decimal` and `float` by value. -/
def numView : Value → Option ℚ
  | .vbool b => some (if b then 1 else 0)
  | .vint n => some (n : ℚ)
  | .vdec q => some q
  | .vfloat q => some q
  | _ => none

/-- Integer view for Python int-typed arithmetic (`bool` is an `int` subtype). -/
def intView : Value → Option Int
  | .vbool b => some (if b then 1 else 0)
  | .vint n => some n
  | _ => none

/-! ## Errors

The evaluator and the engines raise ordinary Python exceptions; the classes
that can surface are modelled by constructor.  `recursionLimit` is fuel
exhaustion, standing for Python's `RecursionError`. -/

/-- Exception kinds raised by the embedded code. -/
inductive Err where
  | valueError (msg : String)
  | typeError (msg : String)
  | attrError (msg : String)
  | keyError (msg : String)
  | invalidOperation
  | zeroDivision
  | recursionLimit
deriving Repr, DecidableEq

/-! ## Python `==`, `<` and arithmetic on runtime values -/

mutual

/-- Python `==`.  Numbers compare by value across `bool`/`int`/`Decimal`/
`float`; `None` only equals `None`; strings and lists structurally.
`PricingMultiplier` and `PricingState` are dataclasses with generated
field-wise `__eq__`.  `Namespace` and function objects compare by identity;
catalog expressions never compare two of those, so identity is modelled as
`false`.  `dict` equality is order-insensitive in Python; entries here are
compared in order (catalog expressions never compare dicts). -/
def pyEq : Value → Value → Bool
  | .vstr a, .vstr b => a = b
  | .vnone, .vnone => true
  | .vlist as, .vlist bs => pyEqList as bs
  | .vdict as, .vdict bs => pyEqPairs as bs
  | .vmul a, .vmul b => a = b
  | .vps a, .vps b => a = b
  | .vbreak a, .vbreak b => a = b
  | a, b =>
    match numView a, numView b with
    | some x, some y => x = y
    | _, _ => false

def pyEqList : List Value → List Value → Bool
  | [], [] => true
  | a :: as, b :: bs => pyEq a b && pyEqList as bs
  | _, _ => false

def pyEqPairs : List (Value × Value) → List (Value × Value) → Bool
  | [], [] => true
  | (ka, va) :: as, (kb, vb) :: bs => pyEq ka kb && pyEq va vb && pyEqPairs as bs
  | _, _ => false

end

mutual

/-- Python `<`: numbers by value, strings lexicographically, lists
lexicographically (element equality first, as CPython does); any other
combination raises `TypeError`. -/
def pyLt : Value → Value → Except Err Bool
  | .vstr a, .vstr b => .ok (pyStrLt a.toList b.toList)
  | .vlist as, .vlist bs => pyLtList as bs
  | a, b =>
    match numView a, numView b with
    | some x, some y => .ok (decide (x < y))
    | _, _ => .error (.typeError "unorderable types")

def pyLtList : List Value → List Value → Except Err Bool
  | [], [] => .ok false
  | [], _ :: _ => .ok true
  | _ :: _, [] => .ok false
  | a :: as, b :: bs =>
    if pyEq a b then pyLtList as bs else pyLt a b

end

/-- Python `<=` (`a < b or a == b` agrees with CPython on every orderable
pair of numbers, strings and lists). -/
def pyLe (a b : Value) : Except Err Bool := do
  let l ← pyLt a b
  if l then return true else return (pyEq a b)

/-- Comparison operators of `ast.Compare` that `visit_Compare` accepts. -/
inductive CmpOp where
  | eq | ne | gt | lt | ge | le
deriving Repr, DecidableEq

/-- One comparison link, as dispatched in `visit_Compare`. -/
def pyCompare : CmpOp → Value → Value → Except Err Bool
  | .eq, a, b => .ok (pyEq a b)
  | .ne, a, b => .ok (!pyEq a b)
  | .gt, a, b => pyLt b a
  | .lt, a, b => pyLt a b
  | .ge, a, b => pyLe b a
  | .le, a, b => pyLe a b

/-- Binary operators that `visit_BinOp` accepts. -/
inductive BinOp where
  | add | sub | mul | div
deriving Repr, DecidableEq

/-- Result kind of mixed-type numeric arithmetic: `Decimal` combines with
ints and bools into `Decimal`, but `Decimal` with `float` raises `TypeError`;
`float` with ints gives `float`; two int-likes give `int`. -/
def numCombine (a b : Value) (q : ℚ) : Except Err Value :=
  match a, b with
  | .vdec _, .vfloat _ => .error (.typeError "decimal and float")
  | .vfloat _, .vdec _ => .error (.typeError "decimal and float")
  | .vdec _, _ => .ok (.vdec q)
  | _, .vdec _ => .ok (.vdec q)
  | .vfloat _, _ => .ok (.vfloat q)
  | _, .vfloat _ => .ok (.vfloat q)
  | _, _ => .ok (.vint (ratTrunc q))

/-- Python `+`: numeric addition, string and list concatenation. -/
def pyAdd (a b : Value) : Except Err Value :=
  match a, b with
  | .vstr x, .vstr y => .ok (.vstr (x ++ y))
  | .vlist x, .vlist y => .ok (.vlist (x ++ y))
  | _, _ =>
    match numView a, numView b with
    | some x, some y => numCombine a b (x + y)
    | _, _ => .error (.typeError "unsupported operands for +")

/-- Python `-` (binary). -/
def pySub (a b : Value) : Except Err Value :=
  match numView a, numView b with
  | some x, some y => numCombine a b (x - y)
  | _, _ => .error (.typeError "unsupported operands for -")

/-- Python `*`: numeric product, or sequence repetition with an int-like. -/
def pyMul (a b : Value) : Except Err Value :=
  match a, b with
  | .vstr x, _ =>
    match intView b with
    | some n => .ok (.vstr (String.join (List.replicate n.toNat x)))
    | none => .error (.typeError "unsupported operands for *")
  | _, .vstr y =>
    match intView a with
    | some n => .ok (.vstr (String.join (List.replicate n.toNat y)))
    | none => .error (.typeError "unsupported operands for *")
  | .vlist x, _ =>
    match intView b with
    | some n => .ok (.vlist (List.flatten (List.replicate n.toNat x)))
    | none => .error (.typeError "unsupported operands for *")
  | _, .vlist y =>
    match intView a with
    | some n => .ok (.vlist (List.flatten (List.replicate n.toNat y)))
    | none => .error (.typeError "unsupported operands for *")
  | _, _ =>
    match numView a, numView b with
    | some x, some y => numCombine a b (x * y)
    | _, _ => .error (.typeError "unsupported operands for *")

/-- Python `/`: true division.  `int / int` yields a `float`; division by
zero raises. -/
def pyDiv (a b : Value) : Except Err Value :=
  match numView a, numView b with
  | some x, some y =>
    if y = 0 then .error .zeroDivision
    else
      match a, b with
      | .vdec _, .vfloat _ => .error (.typeError "decimal and float")
      | .vfloat _, .vdec _ => .error (.typeError "decimal and float")
      | .vdec _, _ => .ok (.vdec (x / y))
      | _, .vdec _ => .ok (.vdec (x / y))
      | _, _ => .ok (.vfloat (x / y))
  | _, _ => .error (.typeError "unsupported operands for /")

/-- Dispatch of `visit_BinOp` after both operands are evaluated. -/
def pyBinOp : BinOp → Value → Value → Except Err Value
  | .add, a, b => pyAdd a b
  | .sub, a, b => pySub a b
  | .mul, a, b => pyMul a b
  | .div, a, b => pyDiv a b

/-- Unary minus (`visit_UnaryOp` with `USub`). -/
def pyNeg (a : Value) : Except Err Value :=
  match a with
  | .vint n => .ok (.vint (-n))
  | .vdec q => .ok (.vdec (-q))
  | .vfloat q => .ok (.vfloat (-q))
  | .vbool b => .ok (.vint (if b then -1 else 0))
  | _ => .error (.typeError "bad operand for unary -")

/-- Shortest-form decimal rendering of an exact rational whose denominator
divides a power of ten.  Python's `str(Decimal)` keeps the stored exponent
(trailing zeros); that presentation detail is lost by the exact-rational
model, and nothing the engine computes reads these strings back. -/
def decRender (q : ℚ) : String :=
  let sign := if q.num < 0 then "-" else ""
  let na := q.num.natAbs
  let d := q.den
  match (List.range 41).find? (fun k => 10 ^ k % d = 0) with
  | some k =>
    let n : Nat := na * (10 ^ k / d)
    if k = 0 then sign ++ toString n
    else
      let ip : Nat := n / 10 ^ k
      let fp : Nat := n % 10 ^ k
      let fs := toString fp
      let pad := String.mk (List.replicate (k - fs.length) '0')
      sign ++ toString ip ++ "." ++ pad ++ fs
  | none => sign ++ toString na ++ "/" ++ toString d

/-- Python `str(x)` for the values the engine stringifies (`Decimal(str(v))`
coercions, multiplier notes, string-list normalization).  Container and
object `repr`s are placeholders: the engine never reads them back. -/
def pyStr : Value → String
  | .vnone => "None"
  | .vbool b => if b then "True" else "False"
  | .vint n => toString n
  | .vdec q => decRender q
  | .vfloat q => decRender q
  | .vstr s => s
  | .vlist _ => "[...]"
  | .vdict _ => "{...}"
  | .vns _ => "<Namespace>"
  | .vps _ => "<PricingState>"
  | .vmul _ => "<PricingMultiplier>"
  | .vbreak _ => "<breakdown>"
  | .vfun n => n

/-! ## Expression AST

Expressions are embedded post-parse: catalog text goes through
`js_to_python` (modelled separately, see the ternary section) and
`ast.parse`, and the node kinds `SafeEvaluator` handles are exactly the
constructors below.  Keyword arguments on calls never occur in the
transpiled dialect and are omitted. -/

/-- Unary operators `visit_UnaryOp` accepts. -/
inductive UnOp where
  | notOp | usub
deriving Repr, DecidableEq

/-- Boolean operator of `ast.BoolOp`. -/
inductive BoolKind where
  | andK | orK
deriving Repr, DecidableEq

/-- Supported expression AST. -/
inductive Expr where
  | const (v : Value)
  | listE (es : List Expr)
  | dictE (kvs : List (Expr × Expr))
  | name (id : String)
  | attr (root : Expr) (field : String)
  | unop (op : UnOp) (e : Expr)
  | boolop (op : BoolKind) (vals : List Expr)
  | binop (op : BinOp) (l : Expr) (r : Expr)
  | cmp (l : Expr) (rest : List (CmpOp × Expr))
  | ifexp (test : Expr) (body : Expr) (orelse : Expr)
  | call (func : Expr) (args : List Expr)
deriving Repr

/-! ## Catalog model (`app/services/schema_loader.py`)

Only the parts the engine consumes are modelled; expressions are stored
parsed, except the raw text of finalize outputs which `execute_pricing`
compares against literal strings. -/

/-- One item of a catalog dictionary (`weight` read via `it.get("weight", 0)`;
the schema stores integer weights). -/
structure DictItem where
  id : String
  weight : Option Int := none
deriving Repr, DecidableEq

/-- One field definition, restricted to the keys `validate_answers` reads.
`required` models `f.get("required") is True`; constraints model the integer
`min`/`max`/`step` and string `min_length`/`max_length` entries. -/
structure FieldDef where
  field_id : String
  required : Bool := false
  data_type : String := "string"
  c_min : Option Int := none
  c_max : Option Int := none
  c_step : Option Int := none
  c_min_length : Option Int := none
  c_max_length : Option Int := none
  dictionary_id : Option String := none
deriving Repr, DecidableEq

/-- One entry of a `pricing_compute` operation's `outputs` list.
`value_expr_str` is the raw schema text (compared literally by the finalize
special-casing); `value_expr` is its parse, used by the generic branch. -/
structure Output where
  target_field_id : String
  value_expr_str : String
  value_expr : Expr
deriving Repr

/-- Rule operations: the visibility op plus the four pricing ops; any other
`op` name reaching `execute_pricing` is the fatal unknown-operation error. -/
inductive Op where
  | set_visible (field_id : String) (value_expr : Option Expr) (value : Bool)
  | pricing_reset
  | pricing_set (key : String) (value_expr : Expr)
  | pricing_add_multiplier (code : String) (multiplier_expr : Expr) (note_expr : Option Expr)
  | pricing_compute (outputs : List Output)
  | unknown_op (name : String)
deriving Repr

/-- A catalog rule.  `when = none` models an absent `when` key
(`rule.get("when", "true")`). -/
structure Rule where
  type : String
  whenE : Option Expr := none
  thenOps : List Op := []
  elseOps : List Op := []
deriving Repr

/-- One pricing parameter declaration (`key`, optional numeric `default`). -/
structure ParamDef where
  key : String
  default : Option ℚ := none
deriving Repr

/-- The catalog, reduced to the accessors the engine calls. -/
structure Catalog where
  currency : String := "RUB"
  fields : List FieldDef := []
  dictionaries : List (String × List DictItem) := []
  rules : List Rule := []
  computedDefs : List (String × Expr) := []
  parameters : List ParamDef := []
  tariff_total_expr : Expr := .const .vnone
  premium_total_expr : Expr := .const .vnone
deriving Repr

/-- `Catalog.dictionary_items`: raises `KeyError` when the dictionary id is
absent (`self.raw["dictionaries"][dictionary_id]`). -/
def Catalog.dictionary_items (cat : Catalog) (dictionary_id : String) :
    Except Err (List DictItem) :=
  match alookup cat.dictionaries dictionary_id with
  | some items => .ok items
  | none => .error (.keyError dictionary_id)

/-! ## Evaluation environments (`SafeEvalConfig` and the env dicts) -/

/-- Which environment the evaluator runs in.  `basic` is the env/config built
identically in `compute_visibility` and `compute_computed`; `pricing` is the
one built by `_pricing_env`/`_pricing_cfg`, carrying the accumulator object
bound to the name `pricing` (`attrSt`) and the accumulator captured by the
helper closures (`helperSt`).  The two differ after a `pricing_reset`,
because the closures keep the object passed to `_pricing_env` while
`env["pricing"]` is rebound. -/
inductive EvalMode where
  | basic
  | pricing (attrSt : PricingState) (helperSt : PricingState)
deriving Repr

/-- Everything `safe_eval` receives: the catalog (for the helper callables),
the data namespaces and the mode. -/
structure Ctx where
  cat : Catalog
  answers : List (String × Value) := []
  computedM : List (String × Value) := []
  params : List (String × ℚ) := []
  mode : EvalMode := .basic

/-- `allowed_callables` of the visibility/computed config. -/
def base_callables : List String :=
  ["Decimal", "includes", "anySelected", "count", "coalesce", "min"]

/-- `allowed_callables` of `_pricing_cfg`. -/
def pricing_callables : List String :=
  base_callables ++
    ["round", "sumRiskWeights", "computeTariffTotal", "computePremiumTotal", "computeBreakdown"]

/-- `allowed_names` (the env keys) of the visibility/computed environments. -/
def base_names : List String :=
  ["Decimal", "answers", "computed", "params", "pricing",
   "includes", "anySelected", "count", "coalesce", "min"]

/-- `allowed_names` of `_pricing_env`. -/
def pricing_names : List String :=
  base_names ++
    ["round", "sumRiskWeights", "computeTariffTotal", "computePremiumTotal", "computeBreakdown"]

/-- `allowed_attr_roots`, identical in every config. -/
def allowed_attr_roots : List String := ["answers", "computed", "params", "pricing"]

/-- Allowed names of the context's config. -/
def Ctx.namesOf (ctx : Ctx) : List String :=
  match ctx.mode with
  | .basic => base_names
  | .pricing _ _ => pricing_names

/-- Allowed callables of the context's config. -/
def Ctx.callablesOf (ctx : Ctx) : List String :=
  match ctx.mode with
  | .basic => base_callables
  | .pricing _ _ => pricing_callables

/-- The env dict lookup behind `visit_Name` (only reached for allowed names,
which are always present in the env). -/
def Ctx.lookupName (ctx : Ctx) : String → Value
  | "answers" => .vns ctx.answers
  | "computed" => .vns ctx.computedM
  | "params" => .vns (ctx.params.map (fun p => (p.1, Value.vdec p.2)))
  | "pricing" =>
    match ctx.mode with
    | .basic => .vns []
    | .pricing a _ => .vps a
  | other => .vfun other

/-- `getattr` on a `Namespace`: real class members (`get`, `as_dict`, the
`_data` slot) win over `__getattr__`; every other missing key yields `None`.
Attributes found on `object` itself (dunder names) are not modelled — catalog
attribute names are field/parameter identifiers. -/
def nsGetattr (data : List (String × Value)) : String → Value
  | "get" => .vfun "Namespace.get"
  | "as_dict" => .vfun "Namespace.as_dict"
  | "_data" => .vdict (data.map (fun p => (Value.vstr p.1, p.2)))
  | attrName => (alookup data attrName).getD .vnone

/-- `getattr` on the `PricingState` dataclass: the seven fields, the
`multipliers_product` property and the `breakdown` bound method; anything
else raises `AttributeError` (dunder names found on `object` are not
modelled). -/
def psGetattr (s : PricingState) : String → Except Err Value
  | "base_rate" => .ok (.vdec s.base_rate)
  | "factor_per_risk_unit" => .ok (.vdec s.factor_per_risk_unit)
  | "risk_weight_sum" => .ok (.vint s.risk_weight_sum)
  | "deductible_discount" => .ok (.vdec s.deductible_discount)
  | "multipliers" => .ok (.vlist (s.multipliers.map Value.vmul))
  | "tariff_total" => .ok (.vdec s.tariff_total)
  | "premium_total" => .ok (.vint s.premium_total)
  | "multipliers_product" => .ok (.vdec s.multipliers_product)
  | "breakdown" => .ok (.vfun "PricingState.breakdown")
  | a => .error (.attrError a)

/-- `getattr(obj, attr)` for the objects an allowed root can hold. -/
def getattrV (v : Value) (attrName : String) : Except Err Value :=
  match v with
  | .vns data => .ok (nsGetattr data attrName)
  | .vps s => psGetattr s attrName
  | _ => .error (.attrError attrName)

/-! ## Built-in helper functions (`expression.py` helpers and the pricing env) -/

/-- Key insert with Python `dict` overwrite semantics (used for the risk
dict comprehension and for deduplicated field definitions). -/
def dictInsert {α : Type} (m : List (String × α)) (k : String) (v : α) : List (String × α) :=
  if (alookup m k).isSome then m.map (fun p => if p.1 = k then (k, v) else p)
  else m ++ [(k, v)]

/-- Python substring containment (`needle in haystack` on strings). -/
def subIn (needle : List Char) : List Char → Bool
  | [] => needle.isEmpty
  | c :: rest => needle.isPrefixOf (c :: rest) || subIn needle rest

/-- `includes(array_or_string, value)`: substring test on strings (through
`str(value)`), membership by `==` on lists and dict keys; `None` and every
non-container (where Python `in` raises `TypeError`, which the helper
catches) give `False`. -/
def fnIncludes (a value : Value) : Bool :=
  match a with
  | .vnone => false
  | .vstr s => subIn (pyStr value).toList s.toList
  | .vlist xs => xs.any (pyEq value)
  | .vdict es => es.any (fun kv => pyEq value kv.1)
  | _ => false

/-- `anySelected(arr)`: `False` for falsy values, otherwise the length test
on `list(arr)` — truthy non-iterables raise `TypeError`. -/
def fnAnySelected (arr : Value) : Except Err Value :=
  if ¬ truthy arr then .ok (.vbool false)
  else
    match arr with
    | .vlist xs => .ok (.vbool (xs.length > 0))
    | .vstr s => .ok (.vbool (s.length > 0))
    | .vdict es => .ok (.vbool (es.length > 0))
    | _ => .error (.typeError "object is not iterable")

/-- `count(arr)`: 0 for falsy values, else `len(list(arr))`. -/
def fnCount (arr : Value) : Except Err Value :=
  if ¬ truthy arr then .ok (.vint 0)
  else
    match arr with
    | .vlist xs => .ok (.vint xs.length)
    | .vstr s => .ok (.vint s.length)
    | .vdict es => .ok (.vint es.length)
    | _ => .error (.typeError "object is not iterable")

/-- `coalesce(*args)`: the first non-`None` argument, else `None`. -/
def fnCoalesce : List Value → Value
  | [] => .vnone
  | .vnone :: rest => fnCoalesce rest
  | v :: _ => v

/-- Left fold of the builtin `min` over remaining candidates (a candidate
replaces the current minimum only when strictly smaller, as CPython keeps
the first of equals). -/
def minFold (cur : Value) : List Value → Except Err Value
  | [] => .ok cur
  | y :: ys => do
    let l ← pyLt y cur
    minFold (if l then y else cur) ys

/-- The builtin `min`: one iterable argument or several plain arguments. -/
def fnMin (args : List Value) : Except Err Value :=
  match args with
  | [] => .error (.typeError "min expected at least 1 argument")
  | [v] =>
    match v with
    | .vlist [] => .error (.valueError "min() arg is an empty sequence")
    | .vlist (x :: xs) => minFold x xs
    | .vstr s =>
      match s.toList with
      | [] => .error (.valueError "min() arg is an empty sequence")
      | c :: cs => minFold (.vstr (String.mk [c])) (cs.map (fun d => .vstr (String.mk [d])))
    | _ => .error (.typeError "object is not iterable")
  | x :: xs => minFold x xs

/-- Exact `q * 10 ^ d` for a possibly negative exponent. -/
def scalePow10 (q : ℚ) (d : Int) : ℚ :=
  if 0 ≤ d then mkRat (q.num * 10 ^ d.toNat) q.den
  else mkRat q.num (q.den * 10 ^ (-d).toNat)

/-- Exact `n / 10 ^ d` for a possibly negative exponent. -/
def unscalePow10 (n : Int) (d : Int) : ℚ :=
  if 0 ≤ d then mkRat n (10 ^ d.toNat)
  else mkRat (n * 10 ^ (-d).toNat) 1

/-- `round(x)` / `round(x, ndigits)` with `Decimal`/`float` half-even
semantics (ints pass through unchanged under nonnegative `ndigits`). -/
def fnRound (args : List Value) : Except Err Value :=
  match args with
  | [v] =>
    match v with
    | .vint n => .ok (.vint n)
    | .vbool b => .ok (.vint (if b then 1 else 0))
    | .vdec q => .ok (.vint (roundHalfEven q))
    | .vfloat q => .ok (.vint (roundHalfEven q))
    | _ => .error (.typeError "type cannot be rounded")
  | [v, k] =>
    match intView k with
    | none => .error (.typeError "ndigits must be an integer")
    | some d =>
      match v with
      | .vdec q => .ok (.vdec (unscalePow10 (roundHalfEven (scalePow10 q d)) d))
      | .vfloat q => .ok (.vfloat (unscalePow10 (roundHalfEven (scalePow10 q d)) d))
      | .vint n =>
        .ok (.vint (ratTrunc (unscalePow10 (roundHalfEven (scalePow10 (mkRat n 1) d)) d)))
      | .vbool b => .ok (.vint (if b then 1 else 0))
      | _ => .error (.typeError "type cannot be rounded")
  | _ => .error (.typeError "round arity")

/-- `Decimal(x)` called from an expression: the constructor accepts strings,
ints (including `bool`, an `int` subtype) and `Decimal`/`float` values;
`None` and containers raise `TypeError`, malformed strings
`decimal.InvalidOperation`. -/
def fnDecimal (args : List Value) : Except Err Value :=
  match args with
  | [] => .ok (.vdec 0)
  | [v] =>
    match v with
    | .vdec q => .ok (.vdec q)
    | .vint n => .ok (.vdec (n : ℚ))
    | .vbool b => .ok (.vdec (if b then 1 else 0))
    | .vfloat q => .ok (.vdec q)
    | .vstr s =>
      match pyParseDecimal s with
      | some q => .ok (.vdec q)
      | none => .error .invalidOperation
    | _ => .error (.typeError "conversion to Decimal not supported")
  | _ => .error (.typeError "Decimal arity")

/-- `risks.get(rid, 0)` for one element of a risk array: string ids look up
the weight table, other hashable values miss (0), unhashable ones raise. -/
def riskWeightOf (risks : List (String × Int)) : Value → Except Err Int
  | .vstr s => .ok ((alookup risks s).getD 0)
  | .vlist _ => .error (.typeError "unhashable type")
  | .vdict _ => .error (.typeError "unhashable type")
  | _ => .ok 0

/-- Iteration of `for rid in arr or []` inside `sumRiskWeights`: falsy
arrays contribute nothing, lists iterate elements, strings iterate their
characters, dicts their keys; truthy non-iterables raise. -/
def sumRiskArr (risks : List (String × Int)) (total : Int) (arr : Value) : Except Err Int :=
  if ¬ truthy arr then .ok total
  else
    match arr with
    | .vlist xs => xs.foldlM (fun t x => do pure (t + (← riskWeightOf risks x))) total
    | .vstr s =>
      s.toList.foldlM (fun t c => do pure (t + (← riskWeightOf risks (.vstr (String.mk [c]))))) total
    | .vdict es => es.foldlM (fun t kv => do pure (t + (← riskWeightOf risks kv.1))) total
    | _ => .error (.typeError "object is not iterable")

/-- `sumRiskWeights(catalog, *risk_arrays)`: weights of `DICT_RISKS` summed
over every id of every array (ids not in the dictionary weigh 0; the dict
comprehension lets a later duplicate id overwrite an earlier one). -/
def fnSumRiskWeights (cat : Catalog) (args : List Value) : Except Err Value := do
  let items ← cat.dictionary_items "DICT_RISKS"
  let risks := items.foldl (fun m it => dictInsert m it.id (it.weight.getD 0)) []
  let total ← args.foldlM (sumRiskArr risks) 0
  .ok (.vint total)

/-- The `_computeTariffTotal` result coercion:
`if not isinstance(value, Decimal): value = Decimal(str(value))`. -/
def coerceDecimalStr : Value → Except Err ℚ
  | .vdec q => .ok q
  | .vint n => .ok (n : ℚ)
  | .vfloat q => .ok q
  | .vstr s =>
    match pyParseDecimal s with
    | some q => .ok q
    | none => .error .invalidOperation
  | _ => .error .invalidOperation

/-- Python `int(value)`, the `_computePremiumTotal` normalization: `Decimal`
and `float` truncate toward zero, strings parse as integer literals,
`None`/containers raise `TypeError`. -/
def pyIntCoerce : Value → Except Err Int
  | .vint n => .ok n
  | .vbool b => .ok (if b then 1 else 0)
  | .vdec q => .ok (ratTrunc q)
  | .vfloat q => .ok (ratTrunc q)
  | .vstr s =>
    match pyParseInt s with
    | some n => .ok n
    | none => .error (.valueError "invalid literal for int()")
  | _ => .error (.typeError "int() argument")

/-! ## The evaluator (`SafeEvaluator` / `safe_eval` after parsing) -/

/-- The `visit_BoolOp` And loop: evaluates operands left to right, returns
`False` at the first falsy operand, else `True` — always a `bool`. -/
def andLoop (ev : Expr → Except Err Value) : List Expr → Except Err Value
  | [] => .ok (.vbool true)
  | v :: vs => do
    let r ← ev v
    if truthy r then andLoop ev vs else .ok (.vbool false)

/-- The `visit_BoolOp` Or loop: `True` at the first truthy operand, else
`False`. -/
def orLoop (ev : Expr → Except Err Value) : List Expr → Except Err Value
  | [] => .ok (.vbool false)
  | v :: vs => do
    let r ← ev v
    if truthy r then .ok (.vbool true) else orLoop ev vs

/-- The `visit_Compare` chain: short-circuits to `False` on the first
failing link, carrying the right operand leftward. -/
def cmpLoop (ev : Expr → Except Err Value) (left : Value) :
    List (CmpOp × Expr) → Except Err Value
  | [] => .ok (.vbool true)
  | (op, c) :: rest => do
    let right ← ev c
    let link ← pyCompare op left right
    if link then cmpLoop ev right rest else .ok (.vbool false)

/-- Dispatch of `visit_Call` once the callee name passed the allow-list and
the arguments are evaluated.  `ev` is the evaluator used by the pricing
helper closures; they re-enter the tariff/premium formulas against the
accumulator they captured when `_pricing_env` ran (`helperSt`), not the
accumulator currently bound to the name `pricing`.  The fresh environment
built inside `_computeTariffTotal`/`_computePremiumTotal` leaves the
`computed` namespace empty (`_pricing_env` fills it with `Namespace({})`
and only `execute_pricing` replaces it). -/
def applyCall (ev : Ctx → Expr → Except Err Value) (ctx : Ctx) (fname : String)
    (args : List Value) : Except Err Value :=
  match fname with
  | "Decimal" => fnDecimal args
  | "includes" =>
    match args with
    | [a, b] => .ok (.vbool (fnIncludes a b))
    | _ => .error (.typeError "includes arity")
  | "anySelected" =>
    match args with
    | [a] => fnAnySelected a
    | _ => .error (.typeError "anySelected arity")
  | "count" =>
    match args with
    | [a] => fnCount a
    | _ => .error (.typeError "count arity")
  | "coalesce" => .ok (fnCoalesce args)
  | "min" => fnMin args
  | "round" => fnRound args
  | "sumRiskWeights" => fnSumRiskWeights ctx.cat args
  | "computeTariffTotal" =>
    match args, ctx.mode with
    | [], .pricing _ hs => do
      let v ← ev { ctx with computedM := [], mode := .pricing hs hs } ctx.cat.tariff_total_expr
      let q ← coerceDecimalStr v
      .ok (.vdec q)
    | [], .basic => .error (.typeError "helper unavailable")
    | _, _ => .error (.typeError "takes 0 arguments")
  | "computePremiumTotal" =>
    match args, ctx.mode with
    | [], .pricing _ hs => do
      let v ← ev { ctx with computedM := [], mode := .pricing hs hs } ctx.cat.premium_total_expr
      let n ← pyIntCoerce v
      .ok (.vint n)
    | [], .basic => .error (.typeError "helper unavailable")
    | _, _ => .error (.typeError "takes 0 arguments")
  | "computeBreakdown" =>
    match args, ctx.mode with
    | [], .pricing _ hs => .ok (.vbreak hs.breakdown)
    | [], .basic => .error (.typeError "helper unavailable")
    | _, _ => .error (.typeError "takes 0 arguments")
  | other => .error (.valueError ("Call not allowed: " ++ other))

/-- `SafeEvaluator.visit` over a parsed expression.  The fuel decreases on
every recursive step; exhaustion models `RecursionError` (an expression of
depth below the fuel evaluates exactly as CPython does). -/
def safe_eval_ast : Nat → Ctx → Expr → Except Err Value
  | 0, _, _ => .error .recursionLimit
  | n + 1, ctx, e =>
    match e with
    | .const v => .ok v
    | .listE es => do
      let vs ← es.mapM (safe_eval_ast n ctx)
      .ok (.vlist vs)
    | .dictE kvs => do
      let ps ← kvs.mapM (fun kv => do
        let k ← safe_eval_ast n ctx kv.1
        let v ← safe_eval_ast n ctx kv.2
        pure (k, v))
      .ok (.vdict ps)
    | .name id =>
      if id ∈ ctx.namesOf then .ok (ctx.lookupName id)
      else .error (.valueError ("Name not allowed: " ++ id))
    | .attr root field =>
      match root with
      | .name rootId =>
        if rootId ∈ allowed_attr_roots then do
          let obj ← safe_eval_ast n ctx (.name rootId)
          getattrV obj field
        else .error (.valueError ("Attribute root not allowed: " ++ rootId))
      | _ => .error (.valueError "Only simple dotted access is allowed")
    | .unop .notOp e1 => do
      let v ← safe_eval_ast n ctx e1
      .ok (.vbool (!truthy v))
    | .unop .usub e1 => do
      let v ← safe_eval_ast n ctx e1
      pyNeg v
    | .boolop .andK vals => andLoop (safe_eval_ast n ctx) vals
    | .boolop .orK vals => orLoop (safe_eval_ast n ctx) vals
    | .binop op l r => do
      let lv ← safe_eval_ast n ctx l
      let rv ← safe_eval_ast n ctx r
      pyBinOp op lv rv
    | .cmp l rest => do
      let lv ← safe_eval_ast n ctx l
      cmpLoop (safe_eval_ast n ctx) lv rest
    | .ifexp t b o => do
      let c ← safe_eval_ast n ctx t
      if truthy c then safe_eval_ast n ctx b else safe_eval_ast n ctx o
    | .call f args =>
      match f with
      | .name fname =>
        if fname ∈ ctx.callablesOf then do
          let argVals ← args.mapM (safe_eval_ast n ctx)
          applyCall (safe_eval_ast n) ctx fname argVals
        else .error (.valueError ("Call not allowed: " ++ fname))
      | _ => .error (.valueError "Only direct function calls are allowed")

/-! ## Pricing engine (`app/services/pricing.py`) -/

/-- `build_params`: every declared parameter key mapped to its exact decimal
default (`Decimal(str(default))`, or `Decimal("0")` when absent). -/
def build_params (cat : Catalog) : List (String × ℚ) :=
  cat.parameters.foldl (fun m p => dictInsert m p.key (p.default.getD 0)) []

/-- `compute_computed`: evaluate the computed entries sequentially in catalog
order; each sees the ones stored so far through the `computed` namespace. -/
def compute_computed (fuel : Nat) (cat : Catalog) (answers : List (String × Value))
    (params : List (String × ℚ)) : Except Err (List (String × Value)) :=
  cat.computedDefs.foldlM (fun acc c => do
    let ctx : Ctx := { cat, answers, computedM := acc, params, mode := .basic }
    let v ← safe_eval_ast fuel ctx c.2
    pure (dictInsert acc c.1 v)) []

/-- `_computeTariffTotal`: evaluates the catalog's tariff-total formula in a
freshly built pricing environment over the given accumulator (the `computed`
namespace of that environment is empty) and coerces the result to
`Decimal`. -/
def _computeTariffTotal (fuel : Nat) (cat : Catalog) (answers : List (String × Value))
    (params : List (String × ℚ)) (pricing : PricingState) : Except Err ℚ := do
  let ctx : Ctx := { cat, answers, computedM := [], params, mode := .pricing pricing pricing }
  let v ← safe_eval_ast fuel ctx cat.tariff_total_expr
  coerceDecimalStr v

/-- `_computePremiumTotal`: evaluates the premium-total formula the same way
and normalizes the result with `int(...)`. -/
def _computePremiumTotal (fuel : Nat) (cat : Catalog) (answers : List (String × Value))
    (params : List (String × ℚ)) (pricing : PricingState) : Except Err Int := do
  let ctx : Ctx := { cat, answers, computedM := [], params, mode := .pricing pricing pricing }
  let v ← safe_eval_ast fuel ctx cat.premium_total_expr
  pyIntCoerce v

/-- Outcome of one rule's `then` list inside `execute_pricing`: either a
`pricing_compute` fired (the engine returns at once) or the list ran out. -/
inductive OpsOut where
  | finished (st : PricingState) (outs : List (String × Value))
  | flow (cur : PricingState) (cap : Option PricingState)
deriving Repr

/-- The evaluation context of rule expressions inside `execute_pricing`'s
loop: the name `pricing` is rebound to the current accumulator after every
reset, while the helper closures keep the object `_pricing_env` captured
before the loop — `cap` holds that object's state once a reset has detached
it (before the first reset the two are the same object). -/
def loopCtx (cat : Catalog) (answers computedM : List (String × Value))
    (params : List (String × ℚ)) (cur : PricingState) (cap : Option PricingState) : Ctx :=
  { cat, answers, computedM, params, mode := .pricing cur (cap.getD cur) }

/-- The `for op in rule.get("then", [])` loop of `execute_pricing`.
`pricing_reset` swaps in a fresh accumulator object and rebinds
`env["pricing"]`, but cannot rebind what the helper closures captured:
the first reset freezes the captured object at its pre-reset state (`cap`).
A `pricing_set` key outside the four declared accumulator fields would
create an untyped dynamic attribute via `setattr`; the catalog never does
this and the branch is modelled as an error.  `pricing_compute` recomputes
the totals against the current accumulator, evaluates the outputs (three
raw-text forms resolve to the just-computed values), and finishes. -/
def runOps (fuel : Nat) (cat : Catalog) (answers computedM : List (String × Value))
    (params : List (String × ℚ)) :
    PricingState → Option PricingState → List Op → Except Err OpsOut
  | cur, cap, [] => .ok (.flow cur cap)
  | cur, cap, op :: rest =>
    match op with
    | .pricing_reset =>
      runOps fuel cat answers computedM params {} (some (cap.getD cur)) rest
    | .pricing_set key ve => do
      let val ← safe_eval_ast fuel (loopCtx cat answers computedM params cur cap) ve
      match key with
      | "base_rate" => do
        let q ← coerceDecimalStr val
        runOps fuel cat answers computedM params { cur with base_rate := q } cap rest
      | "factor_per_risk_unit" => do
        let q ← coerceDecimalStr val
        runOps fuel cat answers computedM params { cur with factor_per_risk_unit := q } cap rest
      | "deductible_discount" => do
        let q ← coerceDecimalStr val
        runOps fuel cat answers computedM params { cur with deductible_discount := q } cap rest
      | "risk_weight_sum" => do
        let n ← pyIntCoerce val
        runOps fuel cat answers computedM params { cur with risk_weight_sum := n } cap rest
      | _ => .error (.valueError "pricing_set: dynamic attribute not modelled")
    | .pricing_add_multiplier code me noteE => do
      let mval ← safe_eval_ast fuel (loopCtx cat answers computedM params cur cap) me
      let mq ← coerceDecimalStr mval
      let note ←
        match noteE with
        | none => pure (none : Option String)
        | some ne => do
          let nv ← safe_eval_ast fuel (loopCtx cat answers computedM params cur cap) ne
          pure (match nv with | .vnone => none | v => some (pyStr v))
      runOps fuel cat answers computedM params
        { cur with multipliers := cur.multipliers ++ [⟨code, mq, note⟩] } cap rest
    | .pricing_compute outputs => do
      let t ← _computeTariffTotal fuel cat answers params cur
      let cur1 := { cur with tariff_total := t }
      let p ← _computePremiumTotal fuel cat answers params cur1
      let cur2 := { cur1 with premium_total := p }
      let outs ← outputs.foldlM (fun acc out => do
        let v ←
          if out.value_expr_str = "computeTariffTotal()" then
            pure (Value.vdec cur2.tariff_total)
          else if out.value_expr_str = "computePremiumTotal()" then
            pure (Value.vint cur2.premium_total)
          else if out.value_expr_str = "computeBreakdown()" then
            pure (Value.vbreak cur2.breakdown)
          else
            safe_eval_ast fuel (loopCtx cat answers computedM params cur2 cap) out.value_expr
        pure (dictInsert acc out.target_field_id v)) []
      .ok (.finished cur2 outs)
    | .set_visible .. => .error (.valueError "Unknown pricing op: set_visible")
    | .unknown_op nm => .error (.valueError ("Unknown pricing op: " ++ nm))

/-- The `for rule in catalog.rules()` loop of `execute_pricing`: non-pricing
rules are skipped, `when` defaults to true, a false `when` skips the rule
(pricing rules have no `else`), and the first `pricing_compute` returns
immediately with the accumulator and outputs. -/
def runRules (fuel : Nat) (cat : Catalog) (answers computedM : List (String × Value))
    (params : List (String × ℚ)) :
    PricingState → Option PricingState → List Rule →
    Except Err (PricingState × List (String × Value))
  | cur, _, [] => .ok (cur, [])
  | cur, cap, r :: rest =>
    if r.type ≠ "pricing" then runRules fuel cat answers computedM params cur cap rest
    else do
      let w ← safe_eval_ast fuel (loopCtx cat answers computedM params cur cap)
        (r.whenE.getD (.const (.vbool true)))
      if ¬ truthy w then runRules fuel cat answers computedM params cur cap rest
      else
        match ← runOps fuel cat answers computedM params cur cap r.thenOps with
        | .finished st outs => .ok (st, outs)
        | .flow cur' cap' => runRules fuel cat answers computedM params cur' cap' rest

/-- `execute_pricing`: fresh accumulator, aliased by the helper closures
(`cap = none`), rules in catalog order. -/
def execute_pricing (fuel : Nat) (cat : Catalog) (answers computedM : List (String × Value))
    (params : List (String × ℚ)) : Except Err (PricingState × List (String × Value)) :=
  runRules fuel cat answers computedM params {} none cat.rules

/-- The dictionary `build_quote` returns.  `quoteId` is `str(uuid4())` in the
source — the only nondeterministic input, modelled as a parameter.
`tariff_total` and the `FLD_TARIFF_TOTAL` output pass through `float(...)`,
exact under the float model. -/
structure Quote where
  quoteId : String
  currency : String
  premium_total : Int
  tariff_total : ℚ
  breakdown : Breakdown
  computedM : List (String × Value)
  validatedAnswers : List (String × Value)
  outputs : List (String × Value)
  warnings : List Value
deriving Repr

/-- The output-normalization loop of `build_quote`: `FLD_TARIFF_TOTAL`
through `float(val)`, `FLD_PREMIUM_TOTAL` through `int(val)`, everything
else unchanged. -/
def normalizeOutputs (outputs : List (String × Value)) : Except Err (List (String × Value)) :=
  outputs.foldlM (fun acc p => do
    if p.1 = "FLD_TARIFF_TOTAL" then
      match numView p.2 with
      | some q => pure (dictInsert acc p.1 (Value.vfloat q))
      | none =>
        match p.2 with
        | .vstr s =>
          match pyParseDecimal s with
          | some q => pure (dictInsert acc p.1 (Value.vfloat q))
          | none => .error (.valueError "could not convert string to float")
        | _ => .error (.typeError "float() argument")
    else if p.1 = "FLD_PREMIUM_TOTAL" then do
      let n ← pyIntCoerce p.2
      pure (dictInsert acc p.1 (Value.vint n))
    else pure (dictInsert acc p.1 p.2)) []

/-- `build_quote`: parameters, computed map, pricing pass, then the quote
dictionary.  Output keys are kept apart from the fixed quote keys (the
spread `**normalized_outputs` could only collide if a catalog declared an
output field named like a fixed key, which none does). -/
def build_quote (fuel : Nat) (cat : Catalog) (answers : List (String × Value))
    (quote_id : String) : Except Err Quote := do
  let params := build_params cat
  let computedM ← compute_computed fuel cat answers params
  let pr ← execute_pricing fuel cat answers computedM params
  let normalized ← normalizeOutputs pr.2
  .ok { quoteId := quote_id
        currency := cat.currency
        premium_total := pr.1.premium_total
        tariff_total := pr.1.tariff_total
        breakdown := pr.1.breakdown
        computedM := computedM
        validatedAnswers := answers
        outputs := normalized
        warnings := [] }

/-! ## Validation engine (`app/services/validation.py`, `app/domain/errors.py`) -/

/-- `FieldValidationError`: the structured failure carrying the field-id →
message mapping. -/
structure FieldValidationError where
  title : String
  detail : String
  field_errors : List (String × String)
deriving Repr, DecidableEq

/-- `_as_int`. -/
def _as_int : Value → Except String Int
  | .vbool _ => .error "boolean is not int"
  | .vint n => .ok n
  | .vstr s =>
    if s.trim ≠ "" then
      match pyParseInt s with
      | some n => .ok n
      | none => .error "invalid literal for int()"
    else .error "not int"
  | _ => .error "not int"

/-- `_as_str`. -/
def _as_str : Value → Except String String
  | .vstr s => .ok s
  | _ => .error "not string"

/-- `_as_str_list`. -/
def _as_str_list : Value → Except String (List String)
  | .vnone => .ok []
  | .vlist xs => .ok (xs.map pyStr)
  | .vstr s => .ok [s]
  | _ => .error "not string[]"

/-- String-list normalization: unique while preserving first-seen order. -/
def dedupPreserve (v : List String) : List String :=
  v.foldl (fun acc x => if x ∈ acc then acc else acc ++ [x]) []

/-- `answers[fid] is not None and answers[fid] != ""` on a present key. -/
def isNoneV : Value → Bool
  | .vnone => true
  | _ => false

/-- `provided = fid in answers and answers[fid] is not None and answers[fid] != ""`. -/
def fieldProvided (answers : List (String × Value)) (fid : String) : Bool :=
  match alookup answers fid with
  | none => false
  | some v => ¬ isNoneV v && ¬ pyEq v (.vstr "")

/-- The `try` block of the per-field loop: type conversion, constraints and
dictionary membership for one provided value; any raised exception becomes
the field's error message (`except Exception as e: field_errors[fid] = str(e)`,
so a missing dictionary id's `KeyError` also lands here). -/
def tryConvert (cat : Catalog) (f : FieldDef) (val : Value) : Except String Value :=
  match f.data_type with
  | "int" => do
    let v ← _as_int val
    match f.c_min with
    | some mn =>
      if v < mn then throw ("Значение меньше минимума " ++ toString mn ++ ".") else pure ()
    | none => pure ()
    match f.c_max with
    | some mx =>
      if v > mx then throw ("Значение больше максимума " ++ toString mx ++ ".") else pure ()
    | none => pure ()
    match f.c_step with
    | some st =>
      let minv := f.c_min.getD 0
      if st > 0 ∧ (v - minv) % st ≠ 0 then throw "Значение не попадает в шаг слайдера."
      else pure ()
    | none => pure ()
    pure (.vint v)
  | "decimal" =>
    match val with
    | .vdec q => .ok (.vdec q)
    | .vbool _ => .error "InvalidOperation"
    | .vint n => .ok (.vdec (mkRat n 1))
    | .vfloat q => .ok (.vdec q)
    | .vstr s =>
      match pyParseDecimal s with
      | some q => .ok (.vdec q)
      | none => .error "InvalidOperation"
    | _ => .error "Ожидалось число."
  | "string" => do
    let v ← _as_str val
    match f.c_min_length with
    | some mn =>
      if (v.length : Int) < mn then throw ("Слишком коротко (мин. " ++ toString mn ++ ").")
      else pure ()
    | none => pure ()
    match f.c_max_length with
    | some mx =>
      if (v.length : Int) > mx then throw ("Слишком длинно (макс. " ++ toString mx ++ ").")
      else pure ()
    | none => pure ()
    match f.dictionary_id with
    | none => pure (.vstr v)
    | some did =>
      match cat.dictionary_items did with
      | .error _ => throw ("KeyError: " ++ did)
      | .ok items =>
        if v ∈ items.map DictItem.id then pure (.vstr v)
        else throw "Выбрано значение не из справочника."
  | "string[]" => do
    let v ← _as_str_list val
    let uniq := dedupPreserve v
    match f.dictionary_id with
    | none => pure (.vlist (uniq.map Value.vstr))
    | some did =>
      match cat.dictionary_items did with
      | .error _ => throw ("KeyError: " ++ did)
      | .ok items =>
        let allowed := items.map DictItem.id
        let bad := uniq.filter (fun x => x ∉ allowed)
        if bad.isEmpty then pure (.vlist (uniq.map Value.vstr))
        else throw ("Есть значения не из справочника: " ++ ", ".intercalate bad)
  | "object" =>
    match val with
    | .vdict es => .ok (.vdict es)
    | _ => .error "Ожидался объект."
  | dt => .error ("Неподдерживаемый data_type: " ++ dt)

/-- Result of the per-field loop body for one declared field. -/
inductive FieldOutcome where
  | skip
  | err (msg : String)
  | val (v : Value)
deriving Repr

/-- One iteration of `for fid, f in field_defs.items()`: invisible fields
are skipped, a missing required field errors (only under
`require_all_required`), an absent optional field is skipped, and a provided
value goes through `tryConvert`. -/
def checkField (cat : Catalog) (answers : List (String × Value))
    (visible : Option (List (String × Bool))) (require_all_required : Bool)
    (fid : String) (f : FieldDef) : FieldOutcome :=
  if visible.elim false (fun vis => alookup vis fid = some false) then .skip
  else
    let provided := fieldProvided answers fid
    if f.required ∧ require_all_required ∧ ¬ provided then
      .err "Поле обязательно (без него магия не сработает)."
    else if ¬ provided then .skip
    else
      match tryConvert cat f ((alookup answers fid).getD .vnone) with
      | .ok v => .val v
      | .error m => .err m

/-- The deduplicated `field_defs` dict (first-occurrence order, later
duplicate declarations overwrite by key). -/
def fieldDefsOf (cat : Catalog) : List (String × FieldDef) :=
  cat.fields.foldl (fun m f => dictInsert m f.field_id f) []

/-- The unknown-field loop: every answer key without a field definition gets
an error entry (visibility does not shield unknown keys). -/
def unknownFieldErrors (cat : Catalog) (answers : List (String × Value)) :
    List (String × String) :=
  answers.foldl (fun errs p =>
    if (alookup (fieldDefsOf cat) p.1).isSome then errs
    else dictInsert errs p.1 "Неизвестное поле (эльфы не знают, куда это положить).") []

/-- Accumulation step of the per-field loop over `(field_errors, normalized)`. -/
def valStep (cat : Catalog) (answers : List (String × Value))
    (visible : Option (List (String × Bool))) (require_all_required : Bool)
    (acc : List (String × String) × List (String × Value)) (e : String × FieldDef) :
    List (String × String) × List (String × Value) :=
  match checkField cat answers visible require_all_required e.1 e.2 with
  | .skip => acc
  | .err m => (dictInsert acc.1 e.1 m, acc.2)
  | .val v => (acc.1, dictInsert acc.2 e.1 v)

/-- The final cleanup loop: `normalized.pop(fid, None)` for every invisible
id.  `pop` removes the single entry of a dict key; `normalized` keys are
unique (built by dict insertion over deduplicated field definitions), so
removal by filtering is the same operation. -/
def clearInvisibleNorm (visible : List (String × Bool))
    (normalized : List (String × Value)) : List (String × Value) :=
  visible.foldl (fun n p => if p.2 then n else n.filter (fun q => q.1 ≠ p.1)) normalized

/-- `validate_answers`: unknown-key errors, the per-field pass, one
aggregated `FieldValidationError` if anything failed, otherwise the
normalized answers with invisible fields removed. -/
def validate_answers (cat : Catalog) (answers : List (String × Value))
    (visible : Option (List (String × Bool))) (require_all_required : Bool) :
    Except FieldValidationError (List (String × Value)) :=
  let unknown := unknownFieldErrors cat answers
  let res := (fieldDefsOf cat).foldl (valStep cat answers visible require_all_required)
    (unknown, [])
  if res.1.isEmpty then
    .ok (match visible with
         | some vis => clearInvisibleNorm vis res.2
         | none => res.2)
  else
    .error { title := "Validation failed"
             detail := "Эльфы нашли ошибки в анкете. Исправьте и попробуйте ещё раз."
             field_errors := res.1 }

/-! ## Ternary transpilation (`expression.py` string layer) -/

/-- `str.strip()` on a char list. -/
def pyStrip (cs : List Char) : List Char :=
  ((cs.dropWhile Char.isWhitespace).reverse.dropWhile Char.isWhitespace).reverse

/-- The scanning loop of `_find_top_level_ternary`: single quotes (not
escaped by a backslash) toggle string mode; characters inside a string are
skipped; parentheses adjust the depth; at depth zero a first `?` is
remembered, further `?` increment the nesting count, and a `:` either
matches a nested `?` or — with none pending — returns the pair of
positions. -/
def findTernaryGo : List Char → Nat → Option Char → Int → Bool → Option Nat → Nat →
    Option (Nat × Nat)
  | [], _, _, _, _, _, _ => none
  | ch :: rest, i, prev, depth, inStr, qPos, nestedQ =>
    let inStr' := if ch = '\'' ∧ (i = 0 ∨ prev ≠ some '\\') then ¬ inStr else inStr
    if inStr' then findTernaryGo rest (i + 1) (some ch) depth inStr' qPos nestedQ
    else if ch = '(' then findTernaryGo rest (i + 1) (some ch) (depth + 1) inStr' qPos nestedQ
    else if ch = ')' then findTernaryGo rest (i + 1) (some ch) (depth - 1) inStr' qPos nestedQ
    else if depth = 0 then
      if ch = '?' then
        match qPos with
        | none => findTernaryGo rest (i + 1) (some ch) depth inStr' (some i) nestedQ
        | some _ => findTernaryGo rest (i + 1) (some ch) depth inStr' qPos (nestedQ + 1)
      else if ch = ':' then
        match qPos with
        | some q =>
          if nestedQ = 0 then some (q, i)
          else findTernaryGo rest (i + 1) (some ch) depth inStr' qPos (nestedQ - 1)
        | none => findTernaryGo rest (i + 1) (some ch) depth inStr' qPos nestedQ
      else findTernaryGo rest (i + 1) (some ch) depth inStr' qPos nestedQ
    else findTernaryGo rest (i + 1) (some ch) depth inStr' qPos nestedQ

/-- `_find_top_level_ternary`. -/
def _find_top_level_ternary (expr : List Char) : Option (Nat × Nat) :=
  findTernaryGo expr 0 none 0 false none 0

/-- `convert_ternary` on char lists, made total with fuel: each recursive
call works on a strict substring of the stripped input, so the recursion
depth is below the length and the wrapper's fuel never runs out. -/
def convertTernaryF : Nat → List Char → List Char
  | 0, cs => pyStrip cs
  | fuelN + 1, cs =>
    let e := pyStrip cs
    match _find_top_level_ternary e with
    | none => e
    | some (q, c) =>
      let cond := pyStrip (e.take q)
      let a := pyStrip ((e.drop (q + 1)).take (c - (q + 1)))
      let b := pyStrip (e.drop (c + 1))
      '(' :: (convertTernaryF fuelN a ++ (" if ".toList ++ (convertTernaryF fuelN cond ++
        (" else ".toList ++ (convertTernaryF fuelN b ++ [')'])))))

/-- `convert_ternary`. -/
def convert_ternary (s : String) : String :=
  String.mk (convertTernaryF (s.length + 1) s.toList)

/-! ## Shared lemmas about association lists and the evaluator loops -/

theorem alookup_map_val {α β : Type} (g : α → β) :
    ∀ (l : List (String × α)) (k : String),
    alookup (l.map (fun p => (p.1, g p.2))) k = (alookup l k).map g := by
  intro l k
  induction l with
  | nil => rfl
  | cons p rest ih =>
    by_cases h : p.1 = k <;> simp [alookup, h, ih]

theorem alookup_eq_none_of_keys {α : Type} :
    ∀ (l : List (String × α)) (k : String), (∀ p ∈ l, p.1 ≠ k) → alookup l k = none := by
  intro l k h
  induction l with
  | nil => rfl
  | cons p rest ih =>
    have hp := h p (by simp)
    simp only [alookup, if_neg hp]
    exact ih (fun q hq => h q (by simp [hq]))

theorem alookup_mem {α : Type} :
    ∀ (l : List (String × α)) (k : String) (v : α), alookup l k = some v → (k, v) ∈ l := by
  intro l k v h
  induction l with
  | nil => exact absurd h (by simp [alookup])
  | cons p rest ih =>
    by_cases hp : p.1 = k
    · simp only [alookup, if_pos hp] at h
      cases h
      subst hp
      exact List.mem_cons_self _ _
    · simp only [alookup, if_neg hp] at h
      exact List.mem_cons_of_mem _ (ih h)

theorem mapReplace_lookup_hit {α : Type} (k : String) (v : α) :
    ∀ (m : List (String × α)), (alookup m k).isSome →
    alookup (m.map (fun p => if p.1 = k then (k, v) else p)) k = some v := by
  intro m
  induction m with
  | nil => intro hs; simp [alookup] at hs
  | cons p rest ih =>
    intro hs
    by_cases hp : p.1 = k
    · simp only [List.map_cons]
      rw [if_pos hp]
      simp [alookup]
    · simp only [List.map_cons]
      rw [if_neg hp]
      simp only [alookup, if_neg hp] at hs ⊢
      exact ih hs

theorem mapReplace_lookup_miss {α : Type} (k k' : String) (v : α) (h : k ≠ k') :
    ∀ (m : List (String × α)),
    alookup (m.map (fun p => if p.1 = k' then (k', v) else p)) k = alookup m k := by
  intro m
  induction m with
  | nil => rfl
  | cons p rest ih =>
    by_cases hp : p.1 = k'
    · simp only [List.map_cons]
      rw [if_pos hp]
      have hk : ¬ p.1 = k := fun hh => h ((hp ▸ hh : k' = k)).symm
      simp only [alookup, if_neg hk, if_neg (fun hh : k' = k => h hh.symm)]
      exact ih
    · simp only [List.map_cons]
      rw [if_neg hp]
      simp only [alookup]
      by_cases hk : p.1 = k <;> simp [hk, ih]

theorem alookup_append_right_miss {α : Type} (k : String) :
    ∀ (m tail : List (String × α)), alookup m k = none →
    alookup (m ++ tail) k = alookup tail k := by
  intro m tail h
  induction m with
  | nil => rfl
  | cons p rest ih =>
    by_cases hp : p.1 = k
    · simp [alookup, hp] at h
    · simp only [alookup, if_neg hp] at h
      simp only [List.cons_append, alookup, if_neg hp]
      exact ih h

theorem alookup_not_isSome_none {α : Type} (m : List (String × α)) (k : String)
    (hs : ¬ (alookup m k).isSome) : alookup m k = none := by
  cases hmk : alookup m k
  · rfl
  · simp [hmk] at hs

theorem alookup_dictInsert_self {α : Type} (m : List (String × α)) (k : String) (v : α) :
    alookup (dictInsert m k v) k = some v := by
  by_cases hs : (alookup m k).isSome
  · rw [dictInsert, if_pos hs]
    exact mapReplace_lookup_hit k v m hs
  · rw [dictInsert, if_neg hs]
    rw [alookup_append_right_miss k m _ (alookup_not_isSome_none m k hs)]
    simp [alookup]

theorem alookup_dictInsert_ne {α : Type} (m : List (String × α)) (k k' : String) (v : α)
    (h : k ≠ k') : alookup (dictInsert m k' v) k = alookup m k := by
  by_cases hs : (alookup m k').isSome
  · rw [dictInsert, if_pos hs]
    exact mapReplace_lookup_miss k k' v h m
  · rw [dictInsert, if_neg hs]
    induction m with
    | nil => simp [alookup, if_neg (fun hh : k' = k => h hh.symm)]
    | cons p rest ih =>
      simp only [alookup, List.cons_append]
      by_cases hk : p.1 = k
      · simp [hk]
      · simp only [if_neg hk]
        by_cases hpk : p.1 = k'
        · simp [alookup, hpk] at hs
        · simp only [alookup, if_neg hpk] at hs
          exact ih hs

theorem alookup_dictInsert_isSome {α : Type} (m : List (String × α)) (k k' : String) (v : α)
    (h : alookup m k ≠ none) : alookup (dictInsert m k' v) k ≠ none := by
  by_cases hk : k = k'
  · subst hk
    simp [alookup_dictInsert_self]
  · rw [alookup_dictInsert_ne m k k' v hk]
    exact h

/-! ## Claim C4 -/

/-- C4: the nested conditional `a ? (b ? 1 : 2) : 3` is NOT transpiled into
nested host-language conditionals.  `_find_top_level_ternary` finds no
top-level `?`/`:` inside the parenthesized arm `(b ? 1 : 2)` (correctly, at
depth 1), but `convert_ternary` never strips the wrapping parentheses
(`_strip_outer_parens` exists and is never called), so the JS tokens survive
into the output, which `ast.parse` then rejects — evaluation fails for every
boolean assignment instead of producing the nested conditional's value.
The unparenthesized nesting `a ? b ? 1 : 2 : 3`, by contrast, converts
correctly. -/
theorem c4_parenthesized_nested_ternary_left_unconverted :
    convert_ternary "a ? (b ? 1 : 2) : 3" = "((b ? 1 : 2) if a else 3)" ∧
    convert_ternary "a ? b ? 1 : 2 : 3" = "((1 if b else 2) if a else 3)" :=
  ⟨rfl, rfl⟩

/-! ## Claim C2 -/

/-- Catalog exhibiting the post-reset helper staleness: one pricing rule
sets `base_rate` to 100, resets, then stores `computeTariffTotal()` (the
tariff formula is `pricing.base_rate`) into `risk_weight_sum`. -/
def c2cat : Catalog :=
  { tariff_total_expr := .attr (.name "pricing") "base_rate"
    premium_total_expr := .attr (.name "pricing") "base_rate"
    rules := [ { type := "pricing"
                 thenOps := [ .pricing_set "base_rate" (.const (.vdec 100))
                            , .pricing_reset
                            , .pricing_set "risk_weight_sum"
                                (.call (.name "computeTariffTotal") [])
                            , .pricing_compute [] ] } ] }

/-- C2: after `pricing_reset`, the helper callables still observe the
pre-reset accumulator.  The reset itself replaces the accumulator (the final
`base_rate` is 0 and the finalize computes `tariff_total = 0` from the reset
state), but `computeTariffTotal()` evaluated by the next operation returns
100 — the pre-reset `base_rate` captured by the closure — so
`risk_weight_sum` ends at 100 where the claimed reset-state view demands
0. -/
theorem c2_reset_not_observed_by_helpers :
    (execute_pricing 20 c2cat [] [] []).toOption.map
      (fun p => (p.1.risk_weight_sum, p.1.base_rate, p.1.tariff_total)) =
      some (100, 0, 0) := rfl

/-! ## Claim C10 -/

theorem exBind_ok {ε α β : Type} (a : α) (f : α → Except ε β) :
    (Except.ok a >>= f) = f a := rfl

theorem exBind_error {ε α β : Type} (e : ε) (f : α → Except ε β) :
    ((Except.error e : Except ε α) >>= f) = .error e := rfl

theorem andLoop_ok_bool (ev : Expr → Except Err Value) :
    ∀ (vals : List Expr) (v : Value), andLoop ev vals = .ok v →
    v = .vbool true ∨ v = .vbool false := by
  intro vals
  induction vals with
  | nil => intro v h; left; cases h; rfl
  | cons e rest ih =>
    intro v h
    simp only [andLoop] at h
    cases he : ev e with
    | error _ => rw [he, exBind_error] at h; exact absurd h (by simp)
    | ok r =>
      rw [he, exBind_ok] at h
      by_cases ht : truthy r
      · rw [if_pos ht] at h
        exact ih v h
      · rw [if_neg ht] at h
        right; cases h; rfl

theorem orLoop_ok_bool (ev : Expr → Except Err Value) :
    ∀ (vals : List Expr) (v : Value), orLoop ev vals = .ok v →
    v = .vbool true ∨ v = .vbool false := by
  intro vals
  induction vals with
  | nil => intro v h; right; cases h; rfl
  | cons e rest ih =>
    intro v h
    simp only [orLoop] at h
    cases he : ev e with
    | error _ => rw [he, exBind_error] at h; exact absurd h (by simp)
    | ok r =>
      rw [he, exBind_ok] at h
      by_cases ht : truthy r
      · rw [if_pos ht] at h
        left; cases h; rfl
      · rw [if_neg ht] at h
        exact ih v h

/-- C10: `visit_BoolOp` always yields a genuine boolean.  Whatever the
operand expressions are, a successful evaluation of an And/Or node returns
`True` or `False` — never one of the operand values — so `x || y` cannot
default to `y`'s value and `x && y` never evaluates to `y`'s value. -/
theorem c10_boolop_returns_bool (fuel : Nat) (ctx : Ctx) (op : BoolKind)
    (vals : List Expr) (v : Value)
    (h : safe_eval_ast fuel ctx (.boolop op vals) = .ok v) :
    v = .vbool true ∨ v = .vbool false := by
  cases fuel with
  | zero => exact absurd h (by simp [safe_eval_ast])
  | succ n =>
    cases op with
    | andK => exact andLoop_ok_bool (safe_eval_ast n ctx) vals v h
    | orK => exact orLoop_ok_bool (safe_eval_ast n ctx) vals v h

/-- C10 witness: `'x' || 7` evaluates to `True` (a boolean), not to the
string, and the theorem applies to it. -/
theorem c10_witness :
    safe_eval_ast 5 { cat := {} } (.boolop .orK [.const (.vstr "x"), .const (.vint 7)]) =
      .ok (.vbool true) ∧
    (Value.vbool true = .vbool true ∨ Value.vbool true = .vbool false) :=
  ⟨rfl, c10_boolop_returns_bool 5 { cat := {} } .orK [.const (.vstr "x"), .const (.vint 7)]
    (.vbool true) rfl⟩

/-! ## Claim C9 -/

/-- C9: `_computePremiumTotal` truncates.  When the catalog's premium-total
formula evaluates to a `Decimal` value `q`, the premium is `int(q)` —
truncation toward zero — and for nonnegative `q` this is the floor, i.e.
the fractional part (even one of 0.5 or more) is dropped, not rounded. -/
theorem c9_premium_total_truncates (fuel : Nat) (cat : Catalog)
    (answers : List (String × Value)) (params : List (String × ℚ))
    (s : PricingState) (q : ℚ)
    (h : safe_eval_ast fuel
      { cat := cat, answers := answers, computedM := [], params := params,
        mode := .pricing s s } cat.premium_total_expr = .ok (.vdec q)) :
    _computePremiumTotal fuel cat answers params s = .ok (ratTrunc q) ∧
    (0 ≤ q → ratTrunc q = ⌊q⌋) := by
  constructor
  · simp only [_computePremiumTotal, h, Except.bind, bind]
    rfl
  · intro hq
    rw [Rat.floor_def]
    exact Int.tdiv_eq_ediv (Rat.num_nonneg.mpr hq) (by positivity)

/-- Witness catalog for C9: the premium formula is the literal decimal 3.5. -/
def c9cat : Catalog := { premium_total_expr := .const (.vdec (mkRat 7 2)) }

/-- C9 witness: at formula value 3.5 the premium is 3 (truncated down), and
3.5 is nonnegative with floor 3. -/
theorem c9_witness :
    _computePremiumTotal 5 c9cat [] [] {} = .ok (ratTrunc (mkRat 7 2)) ∧
    ratTrunc (mkRat 7 2) = 3 ∧ (0 ≤ mkRat 7 2 → ratTrunc (mkRat 7 2) = ⌊mkRat 7 2⌋) :=
  ⟨(c9_premium_total_truncates 5 c9cat [] [] {} (mkRat 7 2) rfl).1, rfl,
   (c9_premium_total_truncates 5 c9cat [] [] {} (mkRat 7 2) rfl).2⟩

/-! ## Claim C8 -/

/-- Attribute names resolvable on the `PricingState` dataclass instance. -/
def pricingStateAttrs : List String :=
  ["base_rate", "factor_per_risk_unit", "risk_weight_sum", "deductible_discount",
   "multipliers", "tariff_total", "premium_total", "multipliers_product", "breakdown"]

theorem psGetattr_absent (s : PricingState) (attr : String)
    (h : attr ∉ pricingStateAttrs) : psGetattr s attr = .error (.attrError attr) := by
  rw [psGetattr.eq_def]
  split <;> simp_all [pricingStateAttrs]

theorem nsGetattr_absent (data : List (String × Value)) (attr : String)
    (h1 : attr ∉ (["get", "as_dict", "_data"] : List String))
    (h2 : alookup data attr = none) : nsGetattr data attr = .vnone := by
  rw [nsGetattr.eq_def]
  split <;> simp_all

theorem eval_name_answers (n : Nat) (ctx : Ctx) :
    safe_eval_ast (n + 1) ctx (.name "answers") = .ok (.vns ctx.answers) := by
  cases hm : ctx.mode <;>
    simp [safe_eval_ast, Ctx.namesOf, hm, base_names, pricing_names, Ctx.lookupName]

theorem eval_name_computed (n : Nat) (ctx : Ctx) :
    safe_eval_ast (n + 1) ctx (.name "computed") = .ok (.vns ctx.computedM) := by
  cases hm : ctx.mode <;>
    simp [safe_eval_ast, Ctx.namesOf, hm, base_names, pricing_names, Ctx.lookupName]

theorem eval_name_params (n : Nat) (ctx : Ctx) :
    safe_eval_ast (n + 1) ctx (.name "params") =
      .ok (.vns (ctx.params.map (fun p => (p.1, Value.vdec p.2)))) := by
  cases hm : ctx.mode <;>
    simp [safe_eval_ast, Ctx.namesOf, hm, base_names, pricing_names, Ctx.lookupName]

theorem eval_name_pricing (n : Nat) (ctx : Ctx) :
    safe_eval_ast (n + 1) ctx (.name "pricing") =
      .ok (match ctx.mode with | .basic => .vns [] | .pricing a _ => .vps a) := by
  cases hm : ctx.mode <;>
    simp [safe_eval_ast, Ctx.namesOf, hm, base_names, pricing_names, Ctx.lookupName]

theorem eval_attr_unfold (n : Nat) (ctx : Ctx) (root attrName : String)
    (hroot : root ∈ allowed_attr_roots) :
    safe_eval_ast (n + 2) ctx (.attr (.name root) attrName) =
      (safe_eval_ast (n + 1) ctx (.name root) >>= fun obj => getattrV obj attrName) := by
  simp only [safe_eval_ast]
  rw [if_pos hroot]

/-- Context for the C8 counterexample: the pricing environment with a fresh
accumulator bound to the name `pricing`. -/
def c8ctx : Ctx := { cat := {}, mode := .pricing {} {} }

/-- C8 counterexample: in the pricing environment, the allow-listed root
`pricing` holds the `PricingState` dataclass, and the absent attribute
`bogus` raises `AttributeError` instead of evaluating to the claimed
null-like `None`. -/
theorem c8_counterexample :
    safe_eval_ast 5 c8ctx (.attr (.name "pricing") "bogus") = .error (.attrError "bogus") ∧
    safe_eval_ast 5 c8ctx (.attr (.name "pricing") "bogus") ≠ .ok Value.vnone :=
  ⟨rfl, fun h => Except.noConfusion h⟩

/-- C8 amended: missing-attribute-null semantics hold exactly for the
`Namespace`-backed roots — `answers`, `computed` and `params` in every
environment, and `pricing` in the visibility/computed environments, where an
absent attribute (that is not one of the real class members `get`,
`as_dict`, `_data`) evaluates to `None`; in the pricing environment the root
`pricing` is the accumulator dataclass and a missing attribute raises
`AttributeError`; a non-allow-listed root or a deeper attribute chain is
rejected with a rejected-expression `ValueError`. -/
theorem c8_missing_attribute_semantics (fuel : Nat) (ctx : Ctx) (attrName : String)
    (hA : attrName ∉ (["get", "as_dict", "_data"] : List String)) :
    (alookup ctx.answers attrName = none →
      safe_eval_ast (fuel + 2) ctx (.attr (.name "answers") attrName) = .ok .vnone) ∧
    (alookup ctx.computedM attrName = none →
      safe_eval_ast (fuel + 2) ctx (.attr (.name "computed") attrName) = .ok .vnone) ∧
    (alookup ctx.params attrName = none →
      safe_eval_ast (fuel + 2) ctx (.attr (.name "params") attrName) = .ok .vnone) ∧
    (ctx.mode = .basic →
      safe_eval_ast (fuel + 2) ctx (.attr (.name "pricing") attrName) = .ok .vnone) ∧
    (∀ a hs, ctx.mode = .pricing a hs → attrName ∉ pricingStateAttrs →
      safe_eval_ast (fuel + 2) ctx (.attr (.name "pricing") attrName) =
        .error (.attrError attrName)) ∧
    (∀ root : String, root ∉ allowed_attr_roots →
      safe_eval_ast (fuel + 2) ctx (.attr (.name root) attrName) =
        .error (.valueError ("Attribute root not allowed: " ++ root))) ∧
    (∀ (r : Expr) (f2 : String),
      safe_eval_ast (fuel + 2) ctx (.attr (.attr r f2) attrName) =
        .error (.valueError "Only simple dotted access is allowed")) := by
  refine ⟨?_, ?_, ?_, ?_, ?_, ?_, ?_⟩
  · intro h
    rw [eval_attr_unfold fuel ctx _ _ (by simp [allowed_attr_roots]),
      eval_name_answers, exBind_ok]
    simp [getattrV, nsGetattr_absent _ _ hA h]
  · intro h
    rw [eval_attr_unfold fuel ctx _ _ (by simp [allowed_attr_roots]),
      eval_name_computed, exBind_ok]
    simp [getattrV, nsGetattr_absent _ _ hA h]
  · intro h
    rw [eval_attr_unfold fuel ctx _ _ (by simp [allowed_attr_roots]),
      eval_name_params, exBind_ok]
    have hmap : alookup (ctx.params.map (fun p => (p.1, Value.vdec p.2))) attrName = none := by
      rw [alookup_map_val]
      simp [h]
    simp [getattrV, nsGetattr_absent _ _ hA hmap]
  · intro hm
    rw [eval_attr_unfold fuel ctx _ _ (by simp [allowed_attr_roots]),
      eval_name_pricing, hm, exBind_ok]
    simp only [getattrV]
    rw [nsGetattr_absent [] attrName hA rfl]
  · intro a hs hm hps
    rw [eval_attr_unfold fuel ctx _ _ (by simp [allowed_attr_roots]),
      eval_name_pricing, hm, exBind_ok]
    simp [getattrV, psGetattr_absent _ _ hps]
  · intro root hroot
    simp only [safe_eval_ast]
    rw [if_neg hroot]
  · intro r f2
    simp only [safe_eval_ast]

/-- C8 witness for the amended statement: in a visibility-style context the
undeclared `answers.FLD_MISSING` evaluates to `None`. -/
theorem c8_witness :
    safe_eval_ast 5 { cat := {}, answers := [("FLD_X", .vint 1)] }
      (.attr (.name "answers") "FLD_MISSING") = .ok .vnone :=
  (c8_missing_attribute_semantics 3 { cat := {}, answers := [("FLD_X", .vint 1)] }
    "FLD_MISSING" (by decide)).1 rfl

/-! ## Claim C3 -/

/-- C3: first finalize wins.  (i) `execute_pricing`'s operation loop returns
at a `pricing_compute` without touching the operations after it; (ii) when a
pricing rule's `when` holds and its operations end in a finalize, the rule
loop returns that result immediately and the remaining rules in the catalog
are irrelevant — the result is the same whatever rules follow. -/
theorem c3_first_finalize_wins (fuel : Nat) (cat : Catalog)
    (answers computedM : List (String × Value)) (params : List (String × ℚ))
    (cur : PricingState) (cap : Option PricingState) (r : Rule) (rs rs' : List Rule)
    (outs : List Output) (rest : List Op) (st : PricingState)
    (os : List (String × Value)) :
    (runOps fuel cat answers computedM params cur cap (.pricing_compute outs :: rest) =
       runOps fuel cat answers computedM params cur cap [.pricing_compute outs]) ∧
    (r.type = "pricing" →
     (∃ w, safe_eval_ast fuel (loopCtx cat answers computedM params cur cap)
        (r.whenE.getD (.const (.vbool true))) = .ok w ∧ truthy w = true) →
     runOps fuel cat answers computedM params cur cap r.thenOps = .ok (.finished st os) →
     runRules fuel cat answers computedM params cur cap (r :: rs) = .ok (st, os) ∧
     runRules fuel cat answers computedM params cur cap (r :: rs) =
       runRules fuel cat answers computedM params cur cap (r :: rs')) := by
  constructor
  · rfl
  · intro htype hwhen hops
    obtain ⟨w, hw, htw⟩ := hwhen
    have hstep : ∀ rs0 : List Rule,
        runRules fuel cat answers computedM params cur cap (r :: rs0) = .ok (st, os) := by
      intro rs0
      simp only [runRules]
      rw [if_neg (by simp [htype]), hw, exBind_ok, if_neg (by simp [htw]), hops, exBind_ok]
    exact ⟨hstep rs, (hstep rs).trans (hstep rs').symm⟩

/-- Witness catalog for C3: constant formulas, one finalizing rule. -/
def c3cat : Catalog :=
  { tariff_total_expr := .const (.vdec 5)
    premium_total_expr := .const (.vdec 5) }

/-- The finalizing rule of the C3 witness. -/
def c3rule : Rule := { type := "pricing", thenOps := [.pricing_compute []] }

/-- A rule whose execution would abort the engine (unknown operation). -/
def c3poison : Rule := { type := "pricing", thenOps := [.unknown_op "explode"] }

/-- The accumulator after the C3 witness finalize. -/
def c3st : PricingState := { tariff_total := 5, premium_total := 5 }

/-- C3 witness: with a poisoned rule after the finalizing one, the engine
still returns the finalize result, identical to running without the poisoned
rule — the later rule is never executed. -/
theorem c3_witness :
    runRules 9 c3cat [] [] [] {} none [c3rule, c3poison] = .ok (c3st, []) ∧
    runRules 9 c3cat [] [] [] {} none [c3rule, c3poison] =
      runRules 9 c3cat [] [] [] {} none [c3rule] :=
  (c3_first_finalize_wins 9 c3cat [] [] [] {} none c3rule [c3poison] [] [] [] c3st []).2
    rfl ⟨.vbool true, rfl, rfl⟩ rfl

/-! ## Claim C1 -/

/-- C1: determinism of quoting.  Two `build_quote` calls on the same catalog
and validated answers agree on `premium_total`, `tariff_total` and the
breakdown — indeed on every field of the quote except the externally
supplied `quoteId` (the model of `str(uuid4())`, the source's only
nondeterminism). -/
theorem c1_build_quote_deterministic (fuel : Nat) (cat : Catalog)
    (answers : List (String × Value)) (q1 q2 : String) (Q1 Q2 : Quote)
    (h1 : build_quote fuel cat answers q1 = .ok Q1)
    (h2 : build_quote fuel cat answers q2 = .ok Q2) :
    Q1.premium_total = Q2.premium_total ∧ Q1.tariff_total = Q2.tariff_total ∧
    Q1.breakdown = Q2.breakdown ∧ Q1 = { Q2 with quoteId := Q1.quoteId } := by
  simp only [build_quote] at h1 h2
  cases hc : compute_computed fuel cat answers (build_params cat) with
  | error e => rw [hc, exBind_error] at h1; exact absurd h1 (by simp)
  | ok cm =>
    rw [hc, exBind_ok] at h1 h2
    cases hp : execute_pricing fuel cat answers cm (build_params cat) with
    | error e => rw [hp, exBind_error] at h1; exact absurd h1 (by simp)
    | ok pr =>
      rw [hp, exBind_ok] at h1 h2
      cases hn : normalizeOutputs pr.2 with
      | error e => rw [hn, exBind_error] at h1; exact absurd h1 (by simp)
      | ok no =>
        rw [hn, exBind_ok] at h1 h2
        cases h1
        cases h2
        exact ⟨rfl, rfl, rfl, rfl⟩

/-- Witness catalog for C1: a computed entry, one pricing rule setting the
base rate and finalizing with a special-cased premium output. -/
def c1cat : Catalog :=
  { currency := "RUB"
    computedDefs := [("C_ONE", .const (.vint 7))]
    tariff_total_expr := .attr (.name "pricing") "base_rate"
    premium_total_expr := .attr (.name "pricing") "tariff_total"
    rules := [ { type := "pricing"
                 thenOps := [ .pricing_set "base_rate" (.const (.vdec 250))
                            , .pricing_compute
                                [ { target_field_id := "FLD_PREMIUM_TOTAL"
                                    value_expr_str := "computePremiumTotal()"
                                    value_expr := .call (.name "computePremiumTotal") [] } ] ] } ] }

/-- C1 witness: two quotes built from the same catalog and answers with
different quote ids agree on everything but the id. -/
theorem c1_witness :
    ∃ Q1 Q2 : Quote,
      build_quote 20 c1cat [] "id-a" = .ok Q1 ∧ build_quote 20 c1cat [] "id-b" = .ok Q2 ∧
      (Q1.premium_total = Q2.premium_total ∧ Q1.tariff_total = Q2.tariff_total ∧
       Q1.breakdown = Q2.breakdown ∧ Q1 = { Q2 with quoteId := Q1.quoteId }) := by
  refine ⟨_, _, rfl, rfl, ?_⟩
  exact c1_build_quote_deterministic 20 c1cat [] "id-a" "id-b" _ _ rfl rfl

/-! ## Lemmas about the validation pass -/

theorem alookup_filter_ne {α : Type} (fid : String) :
    ∀ n : List (String × α), alookup (n.filter (fun q => q.1 ≠ fid)) fid = none := by
  intro n
  induction n with
  | nil => rfl
  | cons p rest ih =>
    by_cases hp : p.1 = fid
    · simp only [List.filter_cons]
      rw [if_neg (by simp [hp])]
      exact ih
    · simp only [List.filter_cons]
      rw [if_pos (by simp [hp])]
      simp only [alookup, if_neg hp]
      exact ih

theorem alookup_filter_none {α : Type} (fid : String) (pr : String × α → Bool) :
    ∀ n : List (String × α), alookup n fid = none →
    alookup (n.filter pr) fid = none := by
  intro n h
  induction n with
  | nil => rfl
  | cons p rest ih =>
    by_cases hp : p.1 = fid
    · simp [alookup, hp] at h
    · simp only [alookup, if_neg hp] at h
      simp only [List.filter_cons]
      by_cases hpr : pr p
      · rw [if_pos hpr]
        simp only [alookup, if_neg hp]
        exact ih h
      · rw [if_neg hpr]
        exact ih h

theorem clearInvisibleNorm_absent (fid : String) :
    ∀ (vis : List (String × Bool)) (n : List (String × Value)),
    alookup n fid = none → alookup (clearInvisibleNorm vis n) fid = none := by
  intro vis
  induction vis with
  | nil => intro n h; exact h
  | cons p rest ih =>
    intro n h
    show alookup (clearInvisibleNorm rest (if p.2 then n else n.filter (fun q => q.1 ≠ p.1))) fid = none
    by_cases hb : p.2
    · rw [if_pos hb]; exact ih n h
    · rw [if_neg hb]; exact ih _ (alookup_filter_none fid _ n h)

theorem clearInvisibleNorm_false (fid : String) :
    ∀ (vis : List (String × Bool)) (n : List (String × Value)),
    alookup vis fid = some false → alookup (clearInvisibleNorm vis n) fid = none := by
  intro vis
  induction vis with
  | nil => intro n h; simp [alookup] at h
  | cons p rest ih =>
    intro n h
    show alookup (clearInvisibleNorm rest (if p.2 then n else n.filter (fun q => q.1 ≠ p.1))) fid = none
    by_cases hp : p.1 = fid
    · have hb : p.2 = false := by
        simp only [alookup, if_pos hp] at h
        exact Option.some.inj h
      rw [hb]
      simp only [Bool.false_eq_true, if_false]
      subst hp
      exact clearInvisibleNorm_absent p.1 rest _ (alookup_filter_ne p.1 n)
    · simp only [alookup, if_neg hp] at h
      exact ih _ h

theorem clearInvisibleNorm_nil :
    ∀ vis : List (String × Bool), clearInvisibleNorm vis [] = [] := by
  intro vis
  induction vis with
  | nil => rfl
  | cons p rest ih =>
    show clearInvisibleNorm rest (if p.2 then [] else List.filter _ []) = []
    by_cases hb : p.2
    · rw [if_pos hb]; exact ih
    · rw [if_neg hb]; exact ih

/-- Shape of a successful `validate_answers` run with a visibility map: the
result is the normalized map with the cleanup applied. -/
theorem validate_ok_shape (cat : Catalog) (answers : List (String × Value))
    (vis : List (String × Bool)) (req : Bool) (res : List (String × Value))
    (hok : validate_answers cat answers (some vis) req = .ok res) :
    res = clearInvisibleNorm vis
      ((fieldDefsOf cat).foldl (valStep cat answers (some vis) req)
        (unknownFieldErrors cat answers, [])).2 := by
  simp only [validate_answers] at hok
  split at hok
  · exact (Except.ok.inj hok).symm
  · exact Except.noConfusion hok

/-! ## Claim C5 -/

/-- C5: invisible answers never survive validation.  Whenever the supplied
visibility map marks a field id false, a successful `validate_answers` run
returns a normalized mapping without that id, whatever value was supplied
for it. -/
theorem c5_invisible_absent_from_normalized (cat : Catalog)
    (answers : List (String × Value)) (vis : List (String × Bool)) (req : Bool)
    (fid : String) (res : List (String × Value))
    (hvis : alookup vis fid = some false)
    (hok : validate_answers cat answers (some vis) req = .ok res) :
    alookup res fid = none := by
  rw [validate_ok_shape cat answers vis req res hok]
  exact clearInvisibleNorm_false fid vis _ hvis

/-- C5 witness: a declared field marked invisible, supplied with a value,
validates successfully and is absent from the output. -/
theorem c5_witness :
    alookup ([] : List (String × Value)) "F" = none :=
  c5_invisible_absent_from_normalized
    { fields := [{ field_id := "F", data_type := "string" }] }
    [("F", .vstr "anything")] [("F", false)] true "F" [] rfl rfl

theorem alookup_ne_none_nonempty {α : Type} (l : List (String × α)) (k : String)
    (h : alookup l k ≠ none) : l.isEmpty = false := by
  cases l with
  | nil => exact absurd rfl h
  | cons p rest => rfl

theorem alookup_none_keys {α : Type} :
    ∀ (l : List (String × α)) (k : String), alookup l k = none → ∀ p ∈ l, p.1 ≠ k := by
  intro l k h p hp
  induction l with
  | nil => exact absurd hp (by simp)
  | cons q rest ih =>
    by_cases hq : q.1 = k
    · simp [alookup, hq] at h
    · simp only [alookup, if_neg hq] at h
      rcases List.mem_cons.mp hp with he | hr
      · subst he; exact hq
      · exact ih h hr

theorem checkField_required_err (cat : Catalog) (answers : List (String × Value))
    (vis : List (String × Bool)) (fid : String) (f : FieldDef)
    (hreq : f.required = true) (hvis : alookup vis fid = some true)
    (hnp : fieldProvided answers fid = false) :
    checkField cat answers (some vis) true fid f =
      .err "Поле обязательно (без него магия не сработает)." := by
  simp only [checkField, Option.elim]
  rw [if_neg (by simp [hvis]), if_pos (by simp [hreq, hnp])]

theorem checkField_unprovided_reqfalse (cat : Catalog) (answers : List (String × Value))
    (visible : Option (List (String × Bool))) (fid : String) (f : FieldDef)
    (hnp : fieldProvided answers fid = false) :
    checkField cat answers visible false fid f = .skip := by
  simp only [checkField, Option.elim]
  split
  · rfl
  · rw [if_neg (by simp), if_pos (by simp [hnp])]

theorem valFold_presence (cat : Catalog) (answers : List (String × Value))
    (visible : Option (List (String × Bool))) (req : Bool) (fid : String) :
    ∀ (fs : List (String × FieldDef)) (acc : List (String × String) × List (String × Value)),
    alookup acc.1 fid ≠ none →
    alookup (fs.foldl (valStep cat answers visible req) acc).1 fid ≠ none := by
  intro fs
  induction fs with
  | nil => intro acc h; exact h
  | cons e rest ih =>
    intro acc h
    simp only [List.foldl_cons]
    apply ih
    cases hcf : checkField cat answers visible req e.1 e.2 with
    | skip => simp only [valStep, hcf]; exact h
    | err m => simp only [valStep, hcf]; exact alookup_dictInsert_isSome _ _ _ _ h
    | val v => simp only [valStep, hcf]; exact h

theorem valFold_err_present (cat : Catalog) (answers : List (String × Value))
    (visible : Option (List (String × Bool))) (req : Bool) (fid : String)
    (f : FieldDef) (m : String) :
    ∀ (fs : List (String × FieldDef)) (acc : List (String × String) × List (String × Value)),
    (fid, f) ∈ fs → checkField cat answers visible req fid f = .err m →
    alookup (fs.foldl (valStep cat answers visible req) acc).1 fid ≠ none := by
  intro fs
  induction fs with
  | nil => intro acc hmem _; exact absurd hmem (by simp)
  | cons e rest ih =>
    intro acc hmem hcf
    simp only [List.foldl_cons]
    rcases List.mem_cons.mp hmem with he | hrest
    · apply valFold_presence
      rw [← he]
      simp only [valStep, hcf]
      simp [alookup_dictInsert_self]
    · exact ih _ hrest hcf

theorem valFold_absent (cat : Catalog) (answers : List (String × Value))
    (visible : Option (List (String × Bool))) (req : Bool) (fid : String)
    (hnoerr : ∀ (f : FieldDef) (m : String),
      checkField cat answers visible req fid f ≠ .err m) :
    ∀ (fs : List (String × FieldDef)) (acc : List (String × String) × List (String × Value)),
    alookup acc.1 fid = none →
    alookup (fs.foldl (valStep cat answers visible req) acc).1 fid = none := by
  intro fs
  induction fs with
  | nil => intro acc h; exact h
  | cons e rest ih =>
    intro acc h
    simp only [List.foldl_cons]
    apply ih
    cases hcf : checkField cat answers visible req e.1 e.2 with
    | skip => simp only [valStep, hcf]; exact h
    | err m =>
      simp only [valStep, hcf]
      by_cases hk : fid = e.1
      · subst hk; exact absurd hcf (hnoerr e.2 m)
      · rw [alookup_dictInsert_ne _ _ _ _ hk]; exact h
    | val v => simp only [valStep, hcf]; exact h

theorem valFold_skip_all (cat : Catalog) (answers : List (String × Value))
    (visible : Option (List (String × Bool))) (req : Bool) :
    ∀ (fs : List (String × FieldDef)) (acc : List (String × String) × List (String × Value)),
    (∀ e ∈ fs, checkField cat answers visible req e.1 e.2 = .skip) →
    fs.foldl (valStep cat answers visible req) acc = acc := by
  intro fs
  induction fs with
  | nil => intro acc _; rfl
  | cons e rest ih =>
    intro acc hall
    simp only [List.foldl_cons, valStep, hall e (by simp)]
    exact ih _ (fun g hg => hall g (by simp [hg]))

theorem unknown_absent_of_keys (cat : Catalog) (fid : String) :
    ∀ (l : List (String × Value)) (acc : List (String × String)),
    (∀ p ∈ l, p.1 ≠ fid) → alookup acc fid = none →
    alookup (l.foldl (fun errs p =>
      if (alookup (fieldDefsOf cat) p.1).isSome then errs
      else dictInsert errs p.1 "Неизвестное поле (эльфы не знают, куда это положить).") acc)
      fid = none := by
  intro l
  induction l with
  | nil => intro acc _ h; exact h
  | cons p rest ih =>
    intro acc hk h
    simp only [List.foldl_cons]
    apply ih _ (fun q hq => hk q (by simp [hq]))
    by_cases hd : (alookup (fieldDefsOf cat) p.1).isSome
    · rw [if_pos hd]; exact h
    · rw [if_neg hd]
      rw [alookup_dictInsert_ne _ _ _ _ (fun hh => (hk p (by simp)) hh.symm)]
      exact h

/-- C7: the required-field gate.  (a) With `require_all_required = true`, a
declared required field that the visibility map marks visible and whose
answer is omitted, `None` or the empty string (`fieldProvided` false) makes
`validate_answers` fail with that field id in the error map.  (b) With
`require_all_required = false` an omitted field can never contribute an
error entry.  (c) In particular the empty answer set always validates under
`require_all_required = false`. -/
theorem c7_required_field_gate (cat : Catalog) (answers : List (String × Value))
    (vis : List (String × Bool)) (fid : String) (f : FieldDef) :
    (alookup (fieldDefsOf cat) fid = some f → f.required = true →
     alookup vis fid = some true → fieldProvided answers fid = false →
     ∃ e, validate_answers cat answers (some vis) true = .error e ∧
       alookup e.field_errors fid ≠ none) ∧
    (alookup answers fid = none →
     ∀ e, validate_answers cat answers (some vis) false = .error e →
     alookup e.field_errors fid = none) ∧
    (validate_answers cat [] (some vis) false = .ok []) := by
  refine ⟨?_, ?_, ?_⟩
  · intro ha hreq hvisT hnp
    have hcf := checkField_required_err cat answers vis fid f hreq hvisT hnp
    have hmem := alookup_mem _ _ _ ha
    have hpres := valFold_err_present cat answers (some vis) true fid f _
      (fieldDefsOf cat) (unknownFieldErrors cat answers, []) hmem hcf
    simp only [validate_answers]
    rw [if_neg (by simp [alookup_ne_none_nonempty _ _ hpres])]
    exact ⟨_, rfl, hpres⟩
  · intro hans e hval
    have hnoerr : ∀ (g : FieldDef) (m : String),
        checkField cat answers (some vis) false fid g ≠ .err m := by
      intro g m hc
      rw [checkField_unprovided_reqfalse cat answers (some vis) fid g
        (by simp [fieldProvided, hans])] at hc
      exact FieldOutcome.noConfusion hc
    have habsU : alookup (unknownFieldErrors cat answers) fid = none := by
      unfold unknownFieldErrors
      exact unknown_absent_of_keys cat fid answers [] (alookup_none_keys answers fid hans) rfl
    have habs := valFold_absent cat answers (some vis) false fid hnoerr
      (fieldDefsOf cat) (unknownFieldErrors cat answers, []) habsU
    simp only [validate_answers] at hval
    split at hval
    · exact Except.noConfusion hval
    · cases hval
      exact habs
  · have hskip : ∀ e ∈ fieldDefsOf cat,
        checkField cat [] (some vis) false e.1 e.2 = .skip := by
      intro e _
      exact checkField_unprovided_reqfalse cat [] (some vis) e.1 e.2 rfl
    simp only [validate_answers]
    rw [valFold_skip_all cat [] (some vis) false (fieldDefsOf cat) _ hskip]
    simp [unknownFieldErrors, clearInvisibleNorm_nil]

/-- The required field of the C7 witness catalog. -/
def c7f : FieldDef := { field_id := "A", required := true, data_type := "int" }

/-- C7 witness catalog. -/
def c7cat : Catalog := { fields := [c7f] }

/-- C7 witness: omitting the visible required field `A` under
`require_all_required = true` produces a failure keyed by `A`, and the empty
answer set validates under `require_all_required = false`. -/
theorem c7_witness :
    (∃ e, validate_answers c7cat [] (some [("A", true)]) true = .error e ∧
      alookup e.field_errors "A" ≠ none) ∧
    validate_answers c7cat [] (some [("A", true)]) false = .ok [] :=
  ⟨(c7_required_field_gate c7cat [] [("A", true)] "A" c7f).1 rfl rfl rfl rfl,
   (c7_required_field_gate c7cat [] [("A", true)] "A" c7f).2.2⟩

theorem unknownFold_presence (cat : Catalog) (fid : String) :
    ∀ (l : List (String × Value)) (acc : List (String × String)),
    alookup acc fid ≠ none →
    alookup (l.foldl (fun errs p =>
      if (alookup (fieldDefsOf cat) p.1).isSome then errs
      else dictInsert errs p.1 "Неизвестное поле (эльфы не знают, куда это положить).") acc)
      fid ≠ none := by
  intro l
  induction l with
  | nil => intro acc h; exact h
  | cons p rest ih =>
    intro acc h
    simp only [List.foldl_cons]
    apply ih
    by_cases hd : (alookup (fieldDefsOf cat) p.1).isSome
    · rw [if_pos hd]; exact h
    · rw [if_neg hd]; exact alookup_dictInsert_isSome _ _ _ _ h

theorem unknown_present (cat : Catalog) (fid : String)
    (hundef : ¬ (alookup (fieldDefsOf cat) fid).isSome) :
    ∀ (l : List (String × Value)) (acc : List (String × String)),
    fid ∈ l.map Prod.fst →
    alookup (l.foldl (fun errs p =>
      if (alookup (fieldDefsOf cat) p.1).isSome then errs
      else dictInsert errs p.1 "Неизвестное поле (эльфы не знают, куда это положить).") acc)
      fid ≠ none := by
  intro l
  induction l with
  | nil => intro acc hmem; exact absurd hmem (by simp)
  | cons p rest ih =>
    intro acc hmem
    rw [List.map_cons] at hmem
    simp only [List.foldl_cons]
    rcases List.mem_cons.mp hmem with he | hr
    · subst he
      apply unknownFold_presence
      rw [if_neg hundef]
      simp [alookup_dictInsert_self]
    · exact ih _ hr

theorem unknown_nil_of_defined (cat : Catalog) :
    ∀ (l : List (String × Value)) (acc : List (String × String)),
    (∀ p ∈ l, (alookup (fieldDefsOf cat) p.1).isSome) →
    l.foldl (fun errs p =>
      if (alookup (fieldDefsOf cat) p.1).isSome then errs
      else dictInsert errs p.1 "Неизвестное поле (эльфы не знают, куда это положить).") acc =
      acc := by
  intro l
  induction l with
  | nil => intro acc _; rfl
  | cons p rest ih =>
    intro acc hall
    simp only [List.foldl_cons, if_pos (hall p (by simp))]
    exact ih _ (fun q hq => hall q (by simp [hq]))

theorem valFold_errs_const (cat : Catalog) (answers : List (String × Value))
    (visible : Option (List (String × Bool))) (req : Bool) :
    ∀ (fs : List (String × FieldDef)) (acc : List (String × String) × List (String × Value)),
    (∀ e ∈ fs, ∀ m, checkField cat answers visible req e.1 e.2 ≠ .err m) →
    (fs.foldl (valStep cat answers visible req) acc).1 = acc.1 := by
  intro fs
  induction fs with
  | nil => intro acc _; rfl
  | cons e rest ih =>
    intro acc hall
    simp only [List.foldl_cons]
    rw [ih _ (fun g hg => hall g (by simp [hg]))]
    cases hcf : checkField cat answers visible req e.1 e.2 with
    | skip => simp only [valStep, hcf]
    | err m => exact absurd hcf (hall e (by simp) m)
    | val v => simp only [valStep, hcf]

/-- The field ids one `validate_answers` pass finds problematic: answer keys
without a field definition, plus declared fields whose per-field check
errors. -/
def problematicIds (cat : Catalog) (answers : List (String × Value))
    (visible : Option (List (String × Bool))) (req : Bool) : List String :=
  (answers.map Prod.fst).filter (fun fid => ¬ (alookup (fieldDefsOf cat) fid).isSome) ++
    (fieldDefsOf cat).filterMap (fun e =>
      match checkField cat answers visible req e.1 e.2 with
      | .err _ => some e.1
      | _ => none)

theorem problematic_present (cat : Catalog) (answers : List (String × Value))
    (visible : Option (List (String × Bool))) (req : Bool) (fid : String)
    (hfid : fid ∈ problematicIds cat answers visible req) :
    alookup ((fieldDefsOf cat).foldl (valStep cat answers visible req)
      (unknownFieldErrors cat answers, [])).1 fid ≠ none := by
  rcases List.mem_append.mp hfid with h1 | h2
  · have hk := List.mem_filter.mp h1
    have hundef : ¬ (alookup (fieldDefsOf cat) fid).isSome := by simpa using hk.2
    apply valFold_presence
    unfold unknownFieldErrors
    exact unknown_present cat fid hundef answers [] hk.1
  · rcases List.mem_filterMap.mp h2 with ⟨e, he, hfn⟩
    cases hcf : checkField cat answers visible req e.1 e.2 with
    | skip => rw [hcf] at hfn; exact absurd hfn (by simp)
    | val v => rw [hcf] at hfn; exact absurd hfn (by simp)
    | err m =>
      rw [hcf] at hfn
      have he1 : e.1 = fid := by simpa using hfn
      have hmem : (fid, e.2) ∈ fieldDefsOf cat := by
        rw [← he1, Prod.mk.eta]
        exact he
      exact valFold_err_present cat answers visible req fid e.2 m _ _ hmem (he1 ▸ hcf)

/-- C6: error aggregation, not fail-fast.  If the pass finds no problematic
field, `validate_answers` returns the normalized answers; if it finds at
least one, it raises a single `FieldValidationError` whose field-error map
has an entry for every problematic field id — never just the first one. -/
theorem c6_errors_aggregated (cat : Catalog) (answers : List (String × Value))
    (visible : Option (List (String × Bool))) (req : Bool) :
    (problematicIds cat answers visible req = [] →
      ∃ r, validate_answers cat answers visible req = .ok r) ∧
    (problematicIds cat answers visible req ≠ [] →
      ∃ e, validate_answers cat answers visible req = .error e ∧
        ∀ fid ∈ problematicIds cat answers visible req,
          alookup e.field_errors fid ≠ none) := by
  constructor
  · intro hnil
    rcases List.append_eq_nil.mp hnil with ⟨hn1, hn2⟩
    have hdef : ∀ p ∈ answers, (alookup (fieldDefsOf cat) p.1).isSome := by
      intro p hp
      by_contra hnd
      have : p.1 ∈ (answers.map Prod.fst).filter
          (fun fid => ¬ (alookup (fieldDefsOf cat) fid).isSome) := by
        apply List.mem_filter.mpr
        exact ⟨List.mem_map_of_mem _ hp, by simpa using hnd⟩
      rw [hn1] at this
      exact absurd this (by simp)
    have hnoerr : ∀ e ∈ fieldDefsOf cat, ∀ m,
        checkField cat answers visible req e.1 e.2 ≠ .err m := by
      intro e he m hcf
      have : e.1 ∈ (fieldDefsOf cat).filterMap (fun e =>
          match checkField cat answers visible req e.1 e.2 with
          | .err _ => some e.1
          | _ => none) := by
        apply List.mem_filterMap.mpr
        exact ⟨e, he, by rw [hcf]⟩
      rw [hn2] at this
      exact absurd this (by simp)
    have hunil : unknownFieldErrors cat answers = [] := by
      unfold unknownFieldErrors
      exact unknown_nil_of_defined cat answers [] hdef
    have herrs := valFold_errs_const cat answers visible req (fieldDefsOf cat)
      (unknownFieldErrors cat answers, []) hnoerr
    have hres : ((fieldDefsOf cat).foldl (valStep cat answers visible req)
        (unknownFieldErrors cat answers, [])).1 = [] := herrs.trans hunil
    simp only [validate_answers]
    rw [if_pos (by simp [hres])]
    exact ⟨_, rfl⟩
  · intro hne
    have hpresAll : ∀ fid ∈ problematicIds cat answers visible req,
        alookup ((fieldDefsOf cat).foldl (valStep cat answers visible req)
          (unknownFieldErrors cat answers, [])).1 fid ≠ none :=
      fun fid hfid => problematic_present cat answers visible req fid hfid
    have hhead : ∃ fid, fid ∈ problematicIds cat answers visible req := by
      cases hp : problematicIds cat answers visible req with
      | nil => exact absurd hp hne
      | cons a rest => exact ⟨a, by simp [hp]⟩
    rcases hhead with ⟨fid0, hfid0⟩
    simp only [validate_answers]
    rw [if_neg (by simp [alookup_ne_none_nonempty _ _ (hpresAll fid0 hfid0)])]
    exact ⟨_, rfl, hpresAll⟩

/-- C6 witness catalog: a required field and a dictionary-bound field. -/
def c6cat : Catalog :=
  { fields := [ { field_id := "A", required := true, data_type := "int" }
              , { field_id := "B", data_type := "string", dictionary_id := some "D" } ]
    dictionaries := [("D", [{ id := "x" }, { id := "y" }])] }

/-- C6 witness answers: `A` omitted (required error), `B` outside its
dictionary (membership error) — two problems in one pass. -/
def c6ans : List (String × Value) := [("B", .vstr "z")]

/-- C6 witness: both problematic ids (`A` and `B`) appear together in the
single aggregated error. -/
theorem c6_witness :
    ∃ e, validate_answers c6cat c6ans (some [("A", true), ("B", true)]) true = .error e ∧
      ∀ fid ∈ problematicIds c6cat c6ans (some [("A", true), ("B", true)]) true,
        alookup e.field_errors fid ≠ none :=
  (c6_errors_aggregated c6cat c6ans (some [("A", true), ("B", true)]) true).2 (by decide)
